import Mathlib

/-!
Verification of the seanime-provider repository (TypeScript provider plugins).

This file shallowly embeds the string-processing and list-processing logic of
the providers:
  * `src/src/darkmahou/darkmahou-provider.ts` (DarkMahou anime torrent provider)
  * `src/unnamed/part_000` (Q1N streaming provider, MangaLivre manga provider)
  * `src/unnamed/part_002` (refactored Q1N streaming provider)

JavaScript strings are modelled as Lean `String` / `List Char`.  The JS regexes
used by the code are embedded as hand-written leftmost-match scanners whose
semantics follow the ECMAScript backtracking engine for the specific patterns
involved (greedy quantifiers with backtracking, word boundaries `\b` over the
ASCII word class `[A-Za-z0-9_]`, classes `\d`, `\s`).  `String.toLowerCase`
and `/i` case folding are modelled on the ASCII range plus the two accented
capitals (`Ó`, `Í`) that actually occur in the patterns (`episódio`,
`cap[íi]tulo`); other code points are untouched, exactly as immaterial for
every pattern and substring the code consults.  `Array.prototype.sort` (stable
since ES2019) is modelled by a stable insertion sort: for a consistent
comparator the stable order is unique, so any stable sort is a faithful model.
-/

/-! ## Character classes and low-level string helpers -/

/-- JS regex class `\d` / `Char.isDigit` (ASCII digits). -/
def isDigitC (c : Char) : Bool := c.isDigit

/-- JS regex word class `\w` = `[A-Za-z0-9_]`, used by the `\b` boundary. -/
def isWordC (c : Char) : Bool := c.isAlphanum || c = '_'

/-- JS regex class `\s` (whitespace), restricted to the code points that can
interact with the embedded patterns: ASCII whitespace plus NBSP. -/
def isSpaceC (c : Char) : Bool :=
  c = ' ' || c = '\t' || c = '\n' || c = '\r' || c = '\x0b' || c = '\x0c' || c = ' '

/-- JS `toLowerCase` / `/i` simple case folding, modelled on ASCII plus the
accented capitals appearing in the embedded patterns. -/
def lowC (c : Char) : Char :=
  if c = 'Ó' then 'ó' else if c = 'Í' then 'í' else c.toLower

/-- Lower-case a JS string (model of `String.prototype.toLowerCase`). -/
def jsLower (s : String) : List Char := s.toList.map lowC

/-- Maximal prefix run of characters satisfying `p`, with the remainder. -/
def splitRun (p : Char → Bool) : List Char → List Char × List Char
  | [] => ([], [])
  | c :: t =>
    if p c then
      let r := splitRun p t
      (c :: r.1, r.2)
    else ([], c :: t)

/-- Numeric value of a digit run (model of `parseInt` on an all-digit string). -/
def digitsVal (l : List Char) : Nat :=
  l.foldl (fun a c => 10 * a + (c.toNat - '0'.toNat)) 0

/-- Case-sensitive literal match: consume `lit` from the front of `s`. -/
def stripCS (lit s : List Char) : Option (List Char) :=
  if lit.isPrefixOf s then some (s.drop lit.length) else none

/-- Case-insensitive literal match under `lowC`; returns the actually consumed
characters (original case) and the remainder. -/
def stripCI : List Char → List Char → Option (List Char × List Char)
  | [], s => some ([], s)
  | _ :: _, [] => none
  | l :: lt, c :: ct =>
    if lowC c = lowC l then
      match stripCI lt ct with
      | some (act, rest) => some (c :: act, rest)
      | none => none
    else none

/-- `hay` contains `needle` as a contiguous substring (model of
`String.prototype.includes`). -/
def containsL (needle : List Char) : List Char → Bool
  | [] => needle.isEmpty
  | c :: t => needle.isPrefixOf (c :: t) || containsL needle t

/-- String-level `includes`. -/
def jsIncludes (hay needle : String) : Bool := containsL needle.toList hay.toList

/-- JS `String.prototype.trim` (both ends, whitespace per `isSpaceC`). -/
def jsTrim (s : String) : String :=
  String.mk (((s.toList.dropWhile isSpaceC).reverse.dropWhile isSpaceC).reverse)

/-! ## Leftmost-match scanning

`scanFirst f prev s` tries `f` at every suffix of `s` from left to right
(the regex engine's bump-along loop); `prev` is the character just before the
current position, for `\b` look-behind.  `scanAll` is the `/g` loop: after a
successful match it resumes right after the matched text. -/

def scanFirst (f : Option Char → List Char → Option α) :
    Option Char → List Char → Option α
  | prev, [] => f prev []
  | prev, c :: t =>
    match f prev (c :: t) with
    | some r => some r
    | none => scanFirst f (some c) t

def scanAll (f : Option Char → List Char → Option (α × Option Char × List Char)) :
    Nat → Option Char → List Char → List α
  | 0, _, _ => []
  | _ + 1, _, [] => []
  | fuel + 1, prev, c :: t =>
    match f prev (c :: t) with
    | some (a, newPrev, rest) => a :: scanAll f fuel newPrev rest
    | none => scanAll f fuel (some c) t

/-- `\b` holds before the current position iff the previous character is
missing or a non-word character. -/
def prevNonWord : Option Char → Bool
  | none => true
  | some c => !isWordC c

/-! ## DarkMahou regex patterns (`REGEX_PATTERNS` in darkmahou-provider.ts) -/

/-- One attempt of `/episódio\s+(\d+)/i` at the current position. -/
def portugueseStep (_ : Option Char) (t : List Char) : Option Nat :=
  match stripCI "episódio".toList t with
  | none => none
  | some (_, r1) =>
    let ws := splitRun isSpaceC r1
    if ws.1.isEmpty then none
    else
      let ds := splitRun isDigitC ws.2
      if ds.1.isEmpty then none else some (digitsVal ds.1)

/-- `EPISODE_PATTERNS.PORTUGUESE = /episódio\s+(\d+)/i`, leftmost match. -/
def matchPortuguese (s : List Char) : Option Nat := scanFirst portugueseStep none s

/-- One attempt of `/\s-\s(\d{1,4})\s/` at the current position. -/
def dashStep (_ : Option Char) (t : List Char) : Option Nat :=
  match t with
  | a :: '-' :: b :: rest =>
    if isSpaceC a && isSpaceC b then
      let ds := splitRun isDigitC rest
      if !ds.1.isEmpty && ds.1.length ≤ 4 &&
          (match ds.2 with | c :: _ => isSpaceC c | [] => false) then
        some (digitsVal ds.1)
      else none
    else none
  | _ => none

/-- `EPISODE_DASH = /\s-\s(\d{1,4})\s/`, leftmost match.  The greedy
`\d{1,4}` followed by `\s` can only succeed on a full digit run of length
at most 4 with a whitespace character after it. -/
def matchDash (s : List Char) : Option Nat := scanFirst dashStep none s

/-- One attempt of `/S(\d+)E(\d+)/i`; the captured value is the second group
(the episode number). -/
def seasonEpStep (_ : Option Char) (t : List Char) : Option Nat :=
  match t with
  | c :: rest =>
    if lowC c = 's' then
      let d1 := splitRun isDigitC rest
      if d1.1.isEmpty then none
      else
        match d1.2 with
        | e :: r2 =>
          if lowC e = 'e' then
            let d2 := splitRun isDigitC r2
            if d2.1.isEmpty then none else some (digitsVal d2.1)
          else none
        | [] => none
    else none
  | [] => none

/-- `SEASON_EPISODE = /S(\d+)E(\d+)/i`, leftmost match, episode component. -/
def matchSeasonEp (s : List Char) : Option Nat := scanFirst seasonEpStep none s

/-- Tail of the English pattern: `\s*(\d+)`. -/
def epTail (r : List Char) : Option Nat :=
  let ws := splitRun isSpaceC r
  let ds := splitRun isDigitC ws.2
  if ds.1.isEmpty then none else some (digitsVal ds.1)

/-- One attempt of `/(?:ep|episode)\s*(\d+)/i`: the alternation tries the
branch `ep` first and backtracks to `episode` when the tail fails. -/
def englishStep (_ : Option Char) (t : List Char) : Option Nat :=
  match stripCI ['e', 'p'] t with
  | none => none
  | some (_, r) =>
    match epTail r with
    | some n => some n
    | none =>
      match stripCI ['i', 's', 'o', 'd', 'e'] r with
      | none => none
      | some (_, r2) => epTail r2

/-- `EPISODE_PATTERNS.ENGLISH = /(?:ep|episode)\s*(\d+)/i`, leftmost match. -/
def matchEnglish (s : List Char) : Option Nat := scanFirst englishStep none s

/-- One attempt of `/\b(\d{1,4})\b/g`: a match is a maximal word-character
run made of 1 to 4 digits.  Returns the value, the new look-behind character
and the rest of the input after the match. -/
def isolatedStep (prev : Option Char) (t : List Char) :
    Option (Nat × Option Char × List Char) :=
  match t with
  | c :: _ =>
    if prevNonWord prev && isDigitC c then
      let ds := splitRun isDigitC t
      if ds.1.length ≤ 4 &&
          (match ds.2 with | [] => true | d :: _ => !isWordC d) then
        some (digitsVal ds.1, ds.1.getLast?, ds.2)
      else none
    else none
  | [] => none

/-- `EPISODE_NUMBER = /\b(\d{1,4})\b/g`: all matches, in order. -/
def isolatedNums (s : List Char) : List Nat :=
  scanAll isolatedStep (s.length + 1) none s

/-- One attempt of `EPISODE_RANGE = /\b(\d{2,3})\s*[-~]\s*(\d{2,3})\b/`.
Greediness and the two word boundaries force both digit runs to be maximal
and of length 2 or 3.  Returns both values, the new look-behind character and
the rest after the match. -/
def rangeCore (prev : Option Char) (t : List Char) :
    Option ((Nat × Nat) × Option Char × List Char) :=
  match t with
  | c :: _ =>
    if prevNonWord prev && isDigitC c then
      let d1 := splitRun isDigitC t
      if d1.1.length < 2 || d1.1.length > 3 then none
      else
        let ws1 := splitRun isSpaceC d1.2
        match ws1.2 with
        | sep :: r3 =>
          if sep = '-' || sep = '~' then
            let ws2 := splitRun isSpaceC r3
            let d2 := splitRun isDigitC ws2.2
            if 2 ≤ d2.1.length && d2.1.length ≤ 3 &&
                (match d2.2 with | [] => true | d :: _ => !isWordC d) then
              some ((digitsVal d1.1, digitsVal d2.1), d2.1.getLast?, d2.2)
            else none
          else none
        | [] => none
    else none
  | [] => none

/-- First (leftmost) `EPISODE_RANGE` match, as `String.prototype.match`
without `/g` returns it. -/
def firstRange (s : List Char) : Option (Nat × Nat) :=
  scanFirst (fun p t => (rangeCore p t).map (·.1)) none s

/-- All `EPISODE_RANGE` matches (the global-scan reading used to formalise
"name contains an episode range ..."). -/
def allRanges (s : List Char) : List (Nat × Nat) :=
  scanAll rangeCore (s.length + 1) none s

/-- `/\bs\d+\b/` on the lower-cased name: a maximal word run of the shape
`s` followed by one or more digits. -/
def sNumStep (prev : Option Char) (t : List Char) : Option Unit :=
  if prevNonWord prev then
    match t with
    | c :: rest =>
      if c = 's' then
        let ds := splitRun isDigitC rest
        if !ds.1.isEmpty &&
            (match ds.2 with | [] => true | d :: _ => !isWordC d) then
          some ()
        else none
      else none
    | [] => none
  else none

def hasTokenSNum (s : List Char) : Bool := (scanFirst sNumStep none s).isSome

/-- `/\bs\d+e\d+\b/` on the lower-cased name. -/
def sNumENumStep (prev : Option Char) (t : List Char) : Option Unit :=
  if prevNonWord prev then
    match t with
    | c :: rest =>
      if c = 's' then
        let d1 := splitRun isDigitC rest
        if d1.1.isEmpty then none
        else
          match d1.2 with
          | 'e' :: r2 =>
            let d2 := splitRun isDigitC r2
            if !d2.1.isEmpty &&
                (match d2.2 with | [] => true | d :: _ => !isWordC d) then
              some ()
            else none
          | _ => none
      else none
    | [] => none
  else none

def hasTokenSNumENum (s : List Char) : Bool := (scanFirst sNumENumStep none s).isSome

/-- `/\s-\s\d{1,3}(\s|$)/` (the "individual episode" pattern; the code
returns `false` on both sides of this test, it is embedded for fidelity). -/
def indivEpStep (_ : Option Char) (t : List Char) : Option Unit :=
  match t with
  | a :: '-' :: b :: rest =>
    if isSpaceC a && isSpaceC b then
      let ds := splitRun isDigitC rest
      if !ds.1.isEmpty && ds.1.length ≤ 3 &&
          (match ds.2 with | [] => true | c :: _ => isSpaceC c) then
        some ()
      else none
    else none
  | _ => none

def hasIndivEp (s : List Char) : Bool := (scanFirst indivEpStep none s).isSome

/-! ## DarkMahou `PROVIDER_CONFIG` constants and `TorrentParser` -/

def MIN_EPISODE_NUMBER : Nat := 1
def MAX_EPISODE_NUMBER : Nat := 9999
def MAX_YEAR : Nat := 2000
def COMMON_RESOLUTIONS : List Nat := [480, 720, 1080]
def MAX_BATCH_EPISODES : Nat := 999

/-- `isValidEpisodeNumber` type guard. -/
def isValidEpisodeNumber (n : Nat) : Bool :=
  decide (MIN_EPISODE_NUMBER ≤ n) && decide (n ≤ MAX_EPISODE_NUMBER)

/-- `TorrentParser.isBatchTorrent`. -/
def isBatchTorrent (name episodeTitle : String) : Bool :=
  let lowerName := jsLower name
  let lowerTitle := jsLower episodeTitle
  if containsL "batch".toList lowerName || containsL "complete".toList lowerName ||
      containsL ['~'] lowerTitle then
    true
  else if (match firstRange name.toList with
      | some (st, en) =>
        decide (en > st) && decide (MIN_EPISODE_NUMBER ≤ st) &&
          decide (en ≤ MAX_BATCH_EPISODES)
      | none => false) then
    true
  else if hasTokenSNum lowerName && !hasTokenSNumENum lowerName then
    true
  else if hasIndivEp name.toList then
    false
  else
    false

/-- `TorrentParser.tryExtractFromPattern` applied to the Portuguese pattern. -/
def tryExtractPortuguese (episodeTitle : String) : Option Nat :=
  match matchPortuguese episodeTitle.toList with
  | some n => if isValidEpisodeNumber n then some n else none
  | none => none

/-- `TorrentParser.tryExtractFromPattern` applied to `EPISODE_DASH`. -/
def tryExtractDash (name : String) : Option Nat :=
  match matchDash name.toList with
  | some n => if isValidEpisodeNumber n then some n else none
  | none => none

/-- `TorrentParser.tryExtractFromSeasonEpisode`. -/
def tryExtractSeasonEp (name : String) : Option Nat :=
  match matchSeasonEp name.toList with
  | some n => if isValidEpisodeNumber n then some n else none
  | none => none

/-- `TorrentParser.tryExtractFromPattern` applied to the English pattern. -/
def tryExtractEnglish (name : String) : Option Nat :=
  match matchEnglish name.toList with
  | some n => if isValidEpisodeNumber n then some n else none
  | none => none

/-- `TorrentParser.isValidEpisodeForIsolation`. -/
def isValidEpisodeForIsolation (n : Nat) : Bool :=
  isValidEpisodeNumber n && !(COMMON_RESOLUTIONS.contains n) && decide (n < MAX_YEAR)

/-- The `for`-loop of `TorrentParser.tryExtractFromIsolatedNumbers`. -/
def firstValidIso : List Nat → Option Nat
  | [] => none
  | n :: t => if isValidEpisodeForIsolation n then some n else firstValidIso t

/-- `TorrentParser.tryExtractFromIsolatedNumbers`. -/
def tryExtractIsolated (name : String) : Option Nat :=
  firstValidIso (isolatedNums name.toList)

/-- `TorrentParser.extractEpisodeNumber`. -/
def extractEpisodeNumber (name episodeTitle : String) : Int :=
  if isBatchTorrent name episodeTitle then -1
  else
    match (tryExtractPortuguese episodeTitle).orElse (fun _ =>
        (tryExtractDash name).orElse (fun _ =>
        (tryExtractSeasonEp name).orElse (fun _ =>
        (tryExtractEnglish name).orElse (fun _ =>
        tryExtractIsolated name)))) with
    | some n => (n : Int)
    | none => -1

/-! ## Claim C1: specification-side episode-number extraction -/

/-- Validity of strategies (1)-(4) as the claim words it: the matched number
is between 1 and 9999. -/
def specInRange (n : Nat) : Bool := decide (1 ≤ n) && decide (n ≤ 9999)

/-- Strategy (5) as the claim words it: the first isolated 1-to-4-digit
number in `name` that is between 1 and 9999, is not one of 480, 720, 1080,
and is strictly less than 2000. -/
def specIsolatedStrategy (name : String) : Option Nat :=
  (isolatedNums name.toList).find? fun n =>
    decide (1 ≤ n) && decide (n ≤ 9999) &&
      !(n == 480 || n == 720 || n == 1080) && decide (n < 2000)

/-- `extractEpisodeNumber` as described by claim C1: `-1` for batch torrents,
otherwise the first succeeding strategy in the fixed priority order, `-1`
when every strategy fails. -/
def specExtractEpisodeNumber (name episodeTitle : String) : Int :=
  if isBatchTorrent name episodeTitle then -1
  else
    match ((matchPortuguese episodeTitle.toList).filter specInRange).orElse (fun _ =>
        ((matchDash name.toList).filter specInRange).orElse (fun _ =>
        ((matchSeasonEp name.toList).filter specInRange).orElse (fun _ =>
        ((matchEnglish name.toList).filter specInRange).orElse (fun _ =>
        specIsolatedStrategy name)))) with
    | some n => (n : Int)
    | none => -1

theorem tryPort_eq (t : String) :
    tryExtractPortuguese t = (matchPortuguese t.toList).filter specInRange := by
  unfold tryExtractPortuguese specInRange isValidEpisodeNumber MIN_EPISODE_NUMBER
    MAX_EPISODE_NUMBER
  cases matchPortuguese t.toList <;> simp [Option.filter]

theorem tryDash_eq (t : String) :
    tryExtractDash t = (matchDash t.toList).filter specInRange := by
  unfold tryExtractDash specInRange isValidEpisodeNumber MIN_EPISODE_NUMBER
    MAX_EPISODE_NUMBER
  cases matchDash t.toList <;> simp [Option.filter]

theorem trySeason_eq (t : String) :
    tryExtractSeasonEp t = (matchSeasonEp t.toList).filter specInRange := by
  unfold tryExtractSeasonEp specInRange isValidEpisodeNumber MIN_EPISODE_NUMBER
    MAX_EPISODE_NUMBER
  cases matchSeasonEp t.toList <;> simp [Option.filter]

theorem tryEnglish_eq (t : String) :
    tryExtractEnglish t = (matchEnglish t.toList).filter specInRange := by
  unfold tryExtractEnglish specInRange isValidEpisodeNumber MIN_EPISODE_NUMBER
    MAX_EPISODE_NUMBER
  cases matchEnglish t.toList <;> simp [Option.filter]

theorem contains_resolutions (n : Nat) :
    COMMON_RESOLUTIONS.contains n = (n == 480 || n == 720 || n == 1080) := by
  cases h1 : n == 480 <;> cases h2 : n == 720 <;> cases h3 : n == 1080 <;>
    simp [COMMON_RESOLUTIONS, List.contains, List.elem, h1, h2, h3]

theorem isoPred_eq : isValidEpisodeForIsolation = fun n =>
    decide (1 ≤ n) && decide (n ≤ 9999) &&
      !(n == 480 || n == 720 || n == 1080) && decide (n < 2000) := by
  funext n
  unfold isValidEpisodeForIsolation isValidEpisodeNumber MIN_EPISODE_NUMBER
    MAX_EPISODE_NUMBER MAX_YEAR
  rw [contains_resolutions]

theorem firstValidIso_eq (l : List Nat) :
    firstValidIso l = l.find? isValidEpisodeForIsolation := by
  induction l with
  | nil => rfl
  | cons n t ih =>
    simp only [firstValidIso, List.find?]
    cases isValidEpisodeForIsolation n <;> simp [ih]

theorem tryIso_eq (t : String) :
    tryExtractIsolated t = specIsolatedStrategy t := by
  unfold tryExtractIsolated specIsolatedStrategy
  rw [firstValidIso_eq, isoPred_eq]

/-- C1: `TorrentParser.extractEpisodeNumber(name, episodeTitle)` returns `-1`
whenever `isBatchTorrent(name, episodeTitle)` is true, and otherwise returns
the value of the first succeeding strategy in the fixed priority order
(Portuguese pattern on the episode title, dash pattern on the name, the
episode component of `S..E..`, the English `ep`/`episode` pattern, then the
first isolated 1-to-4-digit number that is between 1 and 9999, is not one of
480/720/1080 and is strictly below 2000), where strategies (1)-(4) succeed
only for matched numbers between 1 and 9999; `-1` when all strategies fail. -/
theorem c1_extract_episode_number (name episodeTitle : String) :
    extractEpisodeNumber name episodeTitle =
      specExtractEpisodeNumber name episodeTitle := by
  unfold extractEpisodeNumber specExtractEpisodeNumber
  rw [tryPort_eq, tryDash_eq, trySeason_eq, tryEnglish_eq, tryIso_eq]

/-! ## Claim C2: batch-torrent detection -/

/-- Claim C2 as frozen (existential reading): `name` contains *some*
episode-range occurrence whose end exceeds its start, with start ≥ 1 and
end ≤ 999. -/
def claimBatchOriginal (name episodeTitle : String) : Bool :=
  containsL "batch".toList (jsLower name) ||
  containsL "complete".toList (jsLower name) ||
  containsL ['~'] (jsLower episodeTitle) ||
  ((allRanges name.toList).any fun r =>
    decide (r.2 > r.1) && decide (1 ≤ r.1) && decide (r.2 ≤ 999)) ||
  (hasTokenSNum (jsLower name) && !hasTokenSNumENum (jsLower name))

/-- Amended claim C2: only the *first* (leftmost) episode-range match in
`name` is tested for end > start, start ≥ 1, end ≤ 999. -/
def specIsBatchAmended (name episodeTitle : String) : Bool :=
  containsL "batch".toList (jsLower name) ||
  containsL "complete".toList (jsLower name) ||
  containsL ['~'] (jsLower episodeTitle) ||
  (match firstRange name.toList with
   | some (st, en) => decide (en > st) && decide (1 ≤ st) && decide (en ≤ 999)
   | none => false) ||
  (hasTokenSNum (jsLower name) && !hasTokenSNumENum (jsLower name))

/-- C2 counterexample: on the name `"30-20 50-60"` the code only tests the
first range match `(30, 20)`, which fails `end > start`, and returns `false`,
while the name does contain the valid range `(50, 60)`, so the claim as
frozen would require `true`. -/
theorem c2_counterexample :
    isBatchTorrent "30-20 50-60" "" = false ∧
      claimBatchOriginal "30-20 50-60" "" = true := by
  constructor <;> decide

/-- C2 (amended): `isBatchTorrent` returns true iff the lower-cased name
contains "batch" or "complete", or the lower-cased episode title contains
"~", or the first episode-range match in the name has end > start with
start ≥ 1 and end ≤ 999, or the lower-cased name has a standalone token
`s<digits>` but no token `s<digits>e<digits>`. -/
theorem c2_is_batch_amended (name episodeTitle : String) :
    isBatchTorrent name episodeTitle = specIsBatchAmended name episodeTitle := by
  simp only [isBatchTorrent, specIsBatchAmended, MIN_EPISODE_NUMBER, MAX_BATCH_EPISODES]
  cases h1 : (containsL "batch".toList (jsLower name) ||
      containsL "complete".toList (jsLower name) ||
      containsL ['~'] (jsLower episodeTitle)) <;>
    cases h5 : hasIndivEp name.toList <;>
    cases h4 : (hasTokenSNum (jsLower name) && !hasTokenSNumENum (jsLower name)) <;>
    rcases h2 : firstRange name.toList with _ | ⟨st, en⟩ <;>
    simp [h1, h2, h4, h5]

/-! ## Claim C3: `AnimePageExtractor.extractPageURL`

The link collector embeds `ANIME_PAGE_LINK =
/<a[^>]+href="(https:\/\/darkmahou\.org\/[^\/]+\/)"[^>]*title="([^"]*)"[^>]*>/gi`
with genuine backtracking for the greedy `[^>]+` / `[^>]*` gaps (`btSearch`
tries the longest gap first and retries shorter gaps when the continuation
fails, exactly as the ECMAScript engine does). -/

structure ScoreMatch where
  url : String
  title : String
  score : Nat
deriving DecidableEq

/-- Try the literal `lit` (case-insensitively) after skipping `j` characters
of the gap run, then run the continuation. -/
def btAttempt (lit : List Char) (k : List Char → Option α) (run rest : List Char)
    (j : Nat) : Option α :=
  match stripCI lit (run.drop j ++ rest) with
  | some (_, r) => k r
  | none => none

/-- Backtracking loop over gap lengths, longest first, not shorter than `lo`. -/
def btAux (lit : List Char) (k : List Char → Option α) (run rest : List Char)
    (lo : Nat) : Nat → Option α
  | 0 => if lo = 0 then btAttempt lit k run rest 0 else none
  | j + 1 =>
    if j + 1 < lo then none
    else
      match btAttempt lit k run rest (j + 1) with
      | some r => some r
      | none => btAux lit k run rest lo j

/-- Greedy gap of `allowed`-characters (at least `lo` of them) followed by the
literal `lit`, with backtracking into the continuation `k`. -/
def btSearch (allowed : Char → Bool) (lo : Nat) (lit : List Char)
    (k : List Char → Option α) (s : List Char) : Option α :=
  let p := splitRun allowed s
  btAux lit k p.1 p.2 lo p.1.length

/-- One attempt of `ANIME_PAGE_LINK` at the current position; on success
returns `(url-capture, title-capture)`, the new look-behind character and the
rest of the input after the match. -/
def anchorStep (t : List Char) : Option ((String × String) × Option Char × List Char) :=
  match stripCI ['<', 'a'] t with
  | none => none
  | some (_, s1) =>
    btSearch (fun c => !(c = '>')) 1 "href=\"".toList (fun s2 =>
      match stripCI "https://darkmahou.org/".toList s2 with
      | none => none
      | some (act, s3) =>
        let seg := splitRun (fun c => !(c = '/')) s3
        if seg.1.isEmpty then none
        else
          match seg.2 with
          | '/' :: '"' :: s6 =>
            btSearch (fun c => !(c = '>')) 0 "title=\"".toList (fun s7 =>
              let ttl := splitRun (fun c => !(c = '"')) s7
              match ttl.2 with
              | '"' :: s9 =>
                btSearch (fun c => !(c = '>')) 0 ['>'] (fun s10 =>
                  some ((String.mk (act ++ seg.1 ++ ['/']), String.mk ttl.1),
                    some '>', s10)) s9
              | _ => none) s6
          | _ => none) s1

/-- The `while ((match = linkRegex.exec(html)) !== null)` loop. -/
def collectAnchors (html : String) : List (String × String) :=
  scanAll (fun _ t => anchorStep t) (html.toList.length + 1) none html.toList

def EXCLUDED_URL_PATTERNS : List String :=
  ["/?s=", "/tag/", "/blog/", "/contato", "/az-lists",
   "/em-breve", "/animes-populares", "/categoria", "/genero"]

/-- `AnimePageExtractor.shouldSkipURL`. -/
def shouldSkipURL (url : String) : Bool :=
  EXCLUDED_URL_PATTERNS.any fun p => jsIncludes url p

/-- `query.replace(/\s+/g, '-')`: each maximal whitespace run becomes one dash. -/
def replWsDashAux (inRun : Bool) : List Char → List Char
  | [] => []
  | c :: t =>
    if isSpaceC c then
      if inRun then replWsDashAux true t else '-' :: replWsDashAux true t
    else c :: replWsDashAux false t

def replWsDash (l : List Char) : List Char := replWsDashAux false l

/-- `AnimePageExtractor.calculateMatchScore`. -/
def calculateMatchScore (query title url : String) : Nat :=
  let ql := jsLower query
  let tl := jsLower title
  let ul := jsLower url
  if tl = ql then 100
  else if containsL ql tl then 50
  else if containsL (replWsDash ql) ul then 30
  else 0

/-- The collection loop of `extractPageURL`: skip excluded URLs, score, and
keep candidates with a strictly positive score, in document order. -/
def buildLinks (html query : String) : List ScoreMatch :=
  (collectAnchors html).filterMap fun ut =>
    if shouldSkipURL ut.1 then none
    else
      let score := calculateMatchScore query ut.2 ut.1
      if score > 0 then some ⟨ut.1, ut.2, score⟩ else none

/-- Stable insertion (processing document order left to right) for the JS
comparator `(a, b) => b.score - a.score`: `x` goes after every earlier
element whose score is at least `x.score`. -/
def sortInsertDesc (x : ScoreMatch) : List ScoreMatch → List ScoreMatch
  | [] => [x]
  | y :: ys => if x.score ≤ y.score then y :: sortInsertDesc x ys else x :: y :: ys

/-- `potentialLinks.sort((a, b) => b.score - a.score)`: ES2019 `Array.sort`
is stable and the stable order for a consistent comparator is unique, so a
stable insertion sort is a faithful model. -/
def jsSortDesc (l : List ScoreMatch) : List ScoreMatch :=
  l.foldl (fun acc x => sortInsertDesc x acc) []

/-- `AnimePageExtractor.selectBestMatch`. -/
def selectBestMatch (links : List ScoreMatch) : String :=
  match jsSortDesc links with
  | [] => ""
  | b :: _ => b.url

/-- `AnimePageExtractor.extractPageURL`. -/
def extractPageURL (html query : String) : String :=
  selectBestMatch (buildLinks html query)

/-- Claim-side selection: the earliest candidate of maximal score (a later
candidate replaces the current best only when strictly better). -/
def specPick (l : List ScoreMatch) : Option ScoreMatch :=
  l.foldl (fun b x =>
    match b with
    | none => some x
    | some h => if x.score > h.score then some x else some h) none

/-- Claim C3's description of `extractPageURL`: the URL of the earliest
maximal-score candidate among those scoring above 0, else the empty string. -/
def specExtractPageURL (html query : String) : String :=
  match specPick (buildLinks html query) with
  | none => ""
  | some b => b.url

theorem head_sortInsertDesc (x : ScoreMatch) (acc : List ScoreMatch) :
    (sortInsertDesc x acc).head? =
      (match acc.head? with
       | none => some x
       | some h => if x.score ≤ h.score then some h else some x) := by
  cases acc with
  | nil => rfl
  | cons y ys =>
    simp only [sortInsertDesc, List.head?]
    by_cases hc : x.score ≤ y.score
    · rw [if_pos hc, if_pos hc]
    · rw [if_neg hc, if_neg hc]

theorem head_foldl_sortInsert (l : List ScoreMatch) : ∀ acc : List ScoreMatch,
    (l.foldl (fun a x => sortInsertDesc x a) acc).head? =
      l.foldl (fun b x =>
        match b with
        | none => some x
        | some h => if x.score ≤ h.score then some h else some x) acc.head? := by
  induction l with
  | nil => intro acc; rfl
  | cons x t ih =>
    intro acc
    simp only [List.foldl]
    rw [ih, head_sortInsertDesc]

theorem pick_step_eq :
    (fun (b : Option ScoreMatch) (x : ScoreMatch) =>
      match b with
      | none => some x
      | some h => if x.score ≤ h.score then some h else some x) =
    (fun (b : Option ScoreMatch) (x : ScoreMatch) =>
      match b with
      | none => some x
      | some h => if x.score > h.score then some x else some h) := by
  funext b x
  rcases b with _ | h
  · rfl
  · dsimp only
    by_cases hc : x.score ≤ h.score
    · rw [if_pos hc, if_neg (by omega)]
    · rw [if_neg hc, if_pos (by omega)]

theorem selectBestMatch_eq_pick (l : List ScoreMatch) :
    selectBestMatch l = (match specPick l with | none => "" | some b => b.url) := by
  have h1 : (jsSortDesc l).head? = specPick l := by
    unfold jsSortDesc specPick
    rw [head_foldl_sortInsert, List.head?, pick_step_eq]
  unfold selectBestMatch
  cases hs : jsSortDesc l with
  | nil => rw [hs] at h1; rw [← h1]; rfl
  | cons b bs => rw [hs] at h1; rw [← h1]; rfl

/-- C3: `extractPageURL` collects the darkmahou.org anchor links, skips
excluded URLs, scores the rest (100 exact title match, 50 title contains
query, 30 URL contains dashed query, 0 otherwise), and returns the URL of
the earliest candidate of maximal score among those scoring above 0, or the
empty string when there is none. -/
theorem c3_extract_page_url (html query : String) :
    extractPageURL html query = specExtractPageURL html query := by
  unfold extractPageURL specExtractPageURL
  exact selectBestMatch_eq_pick (buildLinks html query)

/-! ## Claim C4: Q1N `parseSearchResults`

`LoadDoc` is an external capability: a document is modelled abstractly as a
map from a CSS selector to the list of matched elements, and an element by
the results of the queries the code performs on it
(`element.find(sel).first().text()`, `element.find(sel).first().attr("href")`,
`element.attr("href")`). -/

structure QElem where
  findFirstText : String → String
  findFirstHref : String → Option String
  attrHref : Option String

def QDoc := String → List QElem

def SEARCH_CONTAINERS : List String :=
  [".items .item", ".result .item", ".search-result .item",
   "article", ".post", ".anime-item"]

def SEARCH_TITLES : List String := [".data h3", "h3", "h2", ".title", ".name"]

def SEARCH_URLS : List String := [".poster a", "a", ".link"]

/-- `extractTextFromSelectors` / `ElementExtractor.extractText`. -/
def extractTextFromSelectors (e : QElem) : List String → String
  | [] => ""
  | sel :: rest =>
    let t := jsTrim (e.findFirstText sel)
    if t ≠ "" then t else extractTextFromSelectors e rest

/-- `extractUrlFromSelectors` / `ElementExtractor.extractUrl` (including the
final fallback to the element's own `href`). -/
def extractUrlFromSelectors (e : QElem) : List String → String
  | [] =>
    match e.attrHref with
    | some h => if h ≠ "" ∧ jsIncludes h "/animes/" then h else ""
    | none => ""
  | sel :: rest =>
    match e.findFirstHref sel with
    | some h =>
      if h ≠ "" ∧ jsIncludes h "/animes/" then h else extractUrlFromSelectors e rest
    | none => extractUrlFromSelectors e rest

/-- `/animes\/([^\/]+)/`, leftmost match (case-sensitive). -/
def matchAnimesId (s : List Char) : Option (List Char) :=
  scanFirst (fun _ t =>
    match stripCS "animes/".toList t with
    | some r =>
      let seg := splitRun (fun c => !(c = '/')) r
      if seg.1.isEmpty then none else some seg.1
    | none => none) none s

/-- `/\/([^\/]+)\/?$/`, leftmost match: a `/`, a nonempty slash-free segment,
an optional final `/`, then end of input. -/
def matchLastSeg (s : List Char) : Option (List Char) :=
  scanFirst (fun _ t =>
    match t with
    | '/' :: r =>
      let seg := splitRun (fun c => !(c = '/')) r
      if seg.1.isEmpty then none
      else
        match seg.2 with
        | [] => some seg.1
        | ['/'] => some seg.1
        | _ => none
    | _ => none) none s

/-- `Utils.extractIdFromUrl`. -/
def extractIdFromUrl (url : String) : String :=
  match matchAnimesId url.toList with
  | some seg => String.mk seg
  | none =>
    match matchLastSeg url.toList with
    | some seg => String.mk seg
    | none => url

/-- `Utils.detectSubOrDub`. -/
def detectSubOrDub (title : String) : String :=
  let lt := jsLower title
  if containsL "dublado".toList lt || containsL "dub".toList lt then "dub" else "sub"

structure QSearchResult where
  id : String
  title : String
  url : String
  subOrDub : String
deriving DecidableEq

/-- `SearchParser.parseResultElement` / `parseSearchResultElement`. -/
def parseSearchResultElement (e : QElem) : Option QSearchResult :=
  let title := extractTextFromSelectors e SEARCH_TITLES
  let url := extractUrlFromSelectors e SEARCH_URLS
  if title = "" ∨ url = "" then none
  else some ⟨extractIdFromUrl url, title, url, detectSubOrDub title⟩

/-- The selector loop in `parseSearchResults`, with its accumulating
`results` array and `if (results.length > 0) break`. -/
def parseSearchResultsGo (doc : QDoc) : List String → List QSearchResult →
    List QSearchResult
  | [], acc => acc
  | sel :: rest, acc =>
    let acc2 := acc ++ (doc sel).filterMap parseSearchResultElement
    if acc2.length > 0 then acc2 else parseSearchResultsGo doc rest acc2

/-- `SearchParser.parseResults` / `parseSearchResults`. -/
def parseSearchResults (doc : QDoc) : List QSearchResult :=
  parseSearchResultsGo doc SEARCH_CONTAINERS []

/-- First non-empty list in a list of lists (claim-side formulation). -/
def firstNonEmptyList : List (List α) → List α
  | [] => []
  | l :: rest => if l.isEmpty then firstNonEmptyList rest else l

/-- Claim C4's description: the results of the first container selector that
yields at least one valid result, the empty list when none does. -/
def specParseSearchResults (doc : QDoc) : List QSearchResult :=
  firstNonEmptyList
    (SEARCH_CONTAINERS.map fun sel => (doc sel).filterMap parseSearchResultElement)

theorem parseSearchResultsGo_eq (doc : QDoc) (sels : List String) :
    parseSearchResultsGo doc sels [] =
      firstNonEmptyList (sels.map fun sel =>
        (doc sel).filterMap parseSearchResultElement) := by
  induction sels with
  | nil => rfl
  | cons sel rest ih =>
    simp only [parseSearchResultsGo, List.map, firstNonEmptyList, List.nil_append]
    cases h : (doc sel).filterMap parseSearchResultElement with
    | nil => simpa [h] using ih
    | cons a t => simp [h]

/-- C4: the Q1N search-result parser consults the container selectors in
their fixed order and returns the parse of the first selector producing at
least one valid result (non-empty title and a URL containing "/animes/");
later selectors are never consulted, and the result is empty when every
selector produces nothing. -/
theorem c4_parse_search_results (doc : QDoc) :
    parseSearchResults doc = specParseSearchResults doc := by
  unfold parseSearchResults specParseSearchResults
  exact parseSearchResultsGo_eq doc SEARCH_CONTAINERS

/-! ## Claim C5: Q1N `selectBestPlayer` / `findEpisodeServer`

The extracted player map (`Map<string, string>`) is modelled as an
association list in insertion order; `Map.get` is `lookupP`,
`map.values().next().value` is the first inserted value.  The part of
`findEpisodeServer` downstream of the episode-page fetch and player
extraction is embedded; a thrown `Error` is an `Except.error`. -/

def SUPPORTED_SERVERS : List String := ["chplay", "ruplay"]

def DEFAULT_SERVER : String := "chplay"

def lookupP (players : List (String × String)) (k : String) : Option String :=
  (players.find? fun kv => kv.1 = k).map (·.2)

def firstValue (players : List (String × String)) : Option String :=
  players.head?.map (·.2)

/-- JS truthiness of a possibly-undefined string. -/
def jsTruthyS : Option String → Bool
  | some s => !(s = "")
  | none => false

/-- JS `a || b` on possibly-undefined strings. -/
def jsOrS (a b : Option String) : Option String := if jsTruthyS a then a else b

/-- The `||`-chain in `selectBestPlayer` / `PlayerSelector.selectBest`. -/
def selectBestPlayerRaw (players : List (String × String)) (preferred : String) :
    Option String :=
  jsOrS (lookupP players preferred)
    (jsOrS (lookupP players DEFAULT_SERVER)
      (jsOrS (lookupP players (SUPPORTED_SERVERS.getD 1 ""))
        (firstValue players)))

/-- `selectBestPlayer(players, preferredServer)`: throw when the selected URL
is falsy or contains "about:blank". -/
def selectBestPlayer (players : List (String × String)) (preferred : String) :
    Except String String :=
  match selectBestPlayerRaw players preferred with
  | none => .error "Nenhuma fonte de vídeo encontrada na página"
  | some u =>
    if u = "" || jsIncludes u "about:blank" then
      .error "Nenhuma fonte de vídeo encontrada na página"
    else .ok u

structure VideoSource where
  url : String
  mediaType : String
  quality : String
  subtitles : List String
deriving DecidableEq

structure EpisodeServerR where
  server : String
  videoSources : List VideoSource
deriving DecidableEq

/-- `buildEpisodeServerResponse` (part_000 variant: type "mp4", quality
"1080p", no subtitles). -/
def buildEpisodeServerResponse (server playerUrl : String) : EpisodeServerR :=
  ⟨server, [⟨playerUrl, "mp4", "1080p", []⟩]⟩

/-- The server-selection core of `findEpisodeServer`, given the extracted
player map: normalise the requested server, select, build the response. -/
def findEpisodeServerCore (players : List (String × String)) (server : String) :
    Except String EpisodeServerR :=
  let selectedServer := if server = "default" ∨ server = "" then DEFAULT_SERVER else server
  match selectBestPlayer players selectedServer with
  | .error e => .error e
  | .ok u => .ok (buildEpisodeServerResponse selectedServer u)

/-- Claim-side normalised server name. -/
def specSelectedServer (server : String) : String :=
  if server = "default" ∨ server = "" then "chplay" else server

/-- Claim-side selection chain: requested server, else "chplay", else
"ruplay", else the first entry of the player map. -/
def specSelectedUrl (players : List (String × String)) (server : String) :
    Option String :=
  (lookupP players (specSelectedServer server)).orElse fun _ =>
    (lookupP players "chplay").orElse fun _ =>
      (lookupP players "ruplay").orElse fun _ => firstValue players

theorem lookupP_ne_empty (players : List (String × String))
    (h : ∀ kv ∈ players, kv.2 ≠ "") (k : String) :
    ∀ s, lookupP players k = some s → s ≠ "" := by
  intro s hs
  unfold lookupP at hs
  rcases hfind : players.find? fun kv => kv.1 = k with _ | kv
  · rw [hfind] at hs; cases hs
  · rw [hfind] at hs
    have hkv : kv.2 = s := by simpa using hs
    exact hkv ▸ h kv (List.mem_of_find?_eq_some hfind)

theorem firstValue_ne_empty (players : List (String × String))
    (h : ∀ kv ∈ players, kv.2 ≠ "") :
    ∀ s, firstValue players = some s → s ≠ "" := by
  intro s hs
  unfold firstValue at hs
  cases players with
  | nil => cases hs
  | cons kv t =>
    have hkv : kv.2 = s := by simpa using hs
    exact hkv ▸ h kv (List.mem_cons_self kv t)

theorem orElse_none_eq (x : Option String) :
    ((none : Option String).orElse fun _ => x) = x := rfl

theorem orElse_some_eq (s : String) (x : Option String) :
    ((some s).orElse fun _ => x) = some s := rfl

theorem jsOrS_eq_orElse (a b : Option String)
    (ha : ∀ s, a = some s → s ≠ "") :
    jsOrS a b = a.orElse fun _ => b := by
  rcases hc : a with _ | s
  · rfl
  · have hne : s ≠ "" := ha s hc
    simp [jsOrS, jsTruthyS, hne]

theorem selectBestPlayerRaw_eq_spec (players : List (String × String))
    (server : String) (h : ∀ kv ∈ players, kv.2 ≠ "") :
    selectBestPlayerRaw players (specSelectedServer server) =
      specSelectedUrl players server := by
  unfold selectBestPlayerRaw specSelectedUrl
  rw [jsOrS_eq_orElse _ _ (lookupP_ne_empty players h _),
    jsOrS_eq_orElse _ _ (lookupP_ne_empty players h _),
    jsOrS_eq_orElse _ _ (lookupP_ne_empty players h _)]
  rfl

/-- C5: given a player map with no empty URLs (as produced by the player
extraction), `findEpisodeServer`'s selection follows the fixed fallback
chain — requested server (with "default"/empty mapped to "chplay"), then
"chplay", then "ruplay", then the first extracted entry — and throws exactly
when the so-selected URL is absent or contains "about:blank"; otherwise it
returns an `EpisodeServer` whose `videoSources` holds exactly one source
whose url is the selected URL. -/
theorem c5_find_episode_server (players : List (String × String)) (server : String)
    (h : ∀ kv ∈ players, kv.2 ≠ "") :
    (specSelectedUrl players server = none →
      findEpisodeServerCore players server =
        .error "Nenhuma fonte de vídeo encontrada na página") ∧
    (∀ u, specSelectedUrl players server = some u →
      (jsIncludes u "about:blank" = true →
        findEpisodeServerCore players server =
          .error "Nenhuma fonte de vídeo encontrada na página") ∧
      (jsIncludes u "about:blank" = false →
        findEpisodeServerCore players server =
          .ok ⟨specSelectedServer server, [⟨u, "mp4", "1080p", []⟩]⟩)) := by
  have hsel : selectBestPlayerRaw players (specSelectedServer server) =
      specSelectedUrl players server := selectBestPlayerRaw_eq_spec players server h
  have hcore : findEpisodeServerCore players server =
      (match selectBestPlayer players (specSelectedServer server) with
       | .error e => .error e
       | .ok u => .ok (buildEpisodeServerResponse (specSelectedServer server) u)) := rfl
  constructor
  · intro hnone
    rw [hcore]
    unfold selectBestPlayer
    rw [hsel, hnone]
  · intro u hu
    have hune : u ≠ "" := by
      unfold specSelectedUrl at hu
      rcases h1 : lookupP players (specSelectedServer server) with _ | s
      · rw [h1, orElse_none_eq] at hu
        rcases h2 : lookupP players "chplay" with _ | s
        · rw [h2, orElse_none_eq] at hu
          rcases h3 : lookupP players "ruplay" with _ | s
          · rw [h3, orElse_none_eq] at hu
            exact firstValue_ne_empty players h u hu
          · rw [h3, orElse_some_eq] at hu
            cases hu
            exact lookupP_ne_empty players h "ruplay" u h3
        · rw [h2, orElse_some_eq] at hu
          cases hu
          exact lookupP_ne_empty players h "chplay" u h2
      · rw [h1, orElse_some_eq] at hu
        cases hu
        exact lookupP_ne_empty players h _ u h1
    constructor
    · intro hab
      rw [hcore]
      unfold selectBestPlayer
      rw [hsel, hu]
      simp [hab]
    · intro hab
      rw [hcore]
      unfold selectBestPlayer
      rw [hsel, hu]
      simp [hab, hune, buildEpisodeServerResponse]

/-- Witness for C5 at a concrete player map and the requested server
"default": the "chplay" entry is selected and returned as the single video
source. -/
theorem c5_find_episode_server_witness :
    findEpisodeServerCore [("chplay", "https://q1n.net/p1")] "default" =
      .ok ⟨"chplay", [⟨"https://q1n.net/p1", "mp4", "1080p", []⟩]⟩ := by
  have h := c5_find_episode_server [("chplay", "https://q1n.net/p1")] "default"
    (by decide)
  exact (h.2 "https://q1n.net/p1" (by decide)).2 (by decide)

/-! ## Fetch outcomes and the torrent record

`fetch` is an external capability; its outcome is either a thrown error or a
response with an ok-flag and a body.  `AnimeTorrent` is embedded with the
fields the claims consult. -/

inductive FetchResult where
  | threw : FetchResult
  | resp (ok : Bool) (body : String) : FetchResult
deriving DecidableEq

structure AnimeTorrentR where
  name : String
  magnetLink : String
  infoHash : String
  resolution : String
  isBatch : Bool
  episodeNumber : Int
  releaseGroup : String
  link : String
deriving DecidableEq

/-! ## Claim C6: search operations absorb fetch failures -/

/-- `HTTPClient.fetchWithUserAgent`: a thrown request or a non-OK status
becomes an error result. -/
def fetchWithUserAgent (r : FetchResult) : Except Unit String :=
  match r with
  | .threw => .error ()
  | .resp ok body => if ok then .ok body else .error ()

/-- DarkMahou `Provider.search`, parametrised by the external capabilities it
consumes: the query translator (`PortugueseTranslator.convertQuery`), the
torrent-page parser (`parseTorrentsFromHTML`), and the two fetch outcomes
(search page, anime page).  The torrent-page parser is abstracted because
this embedding serves the failure-branch claim (C6) only; note that the
concrete parser also consumes the system clock through
`createAnimeTorrent`'s `date` field — that dependence is embedded
explicitly in `createAnimeTorrent` below (claim C7). -/
def darkmahouSearch (convQuery : String → String)
    (parseTorrents : String → List AnimeTorrentR)
    (searchFetch pageFetch : FetchResult) (query : String) : List AnimeTorrentR :=
  match fetchWithUserAgent searchFetch with
  | .error _ => []
  | .ok html =>
    let pageURL := extractPageURL html (convQuery query)
    if pageURL = "" then []
    else
      match fetchWithUserAgent pageFetch with
      | .error _ => []
      | .ok html2 => parseTorrents html2

/-- Q1N `fetchHtml`: `null` on a thrown request or non-OK status. -/
def fetchHtml (r : FetchResult) : Option String :=
  match r with
  | .threw => none
  | .resp ok body => if ok then some body else none

/-- Q1N `Provider.search` (part_000 and part_002 are identical here),
parametrised by the `LoadDoc` capability. -/
def q1nSearch (loadDoc : String → QDoc) (searchFetch : FetchResult) :
    List QSearchResult :=
  match fetchHtml searchFetch with
  | none => []
  | some html => if html = "" then [] else parseSearchResults (loadDoc html)

/-- MangaLivre `Provider.search`, with the body parsing (LoadDoc over
`.search-lists .manga__item`) abstracted as `parseBody`; a thrown fetch is
caught by the surrounding try/catch and a non-OK status returns early. -/
def mangaLivreSearch (parseBody : String → List QSearchResult)
    (searchFetch : FetchResult) : List QSearchResult :=
  match searchFetch with
  | .threw => []
  | .resp ok body =>
    if !ok then []
    else
      let results := parseBody body
      if results.length = 0 then [] else results

/-- C6: when the HTTP fetch of the search page fails — the request throws or
the response status is not OK — each provider's search returns the empty
list (the failure is absorbed, never re-thrown). -/
theorem c6_search_fetch_failure_empty (convQuery : String → String)
    (parseTorrents : String → List AnimeTorrentR) (pageFetch : FetchResult)
    (query : String) (loadDoc : String → QDoc)
    (parseBody : String → List QSearchResult) (body : String) :
    darkmahouSearch convQuery parseTorrents .threw pageFetch query = [] ∧
    darkmahouSearch convQuery parseTorrents (.resp false body) pageFetch query = [] ∧
    q1nSearch loadDoc .threw = [] ∧
    q1nSearch loadDoc (.resp false body) = [] ∧
    mangaLivreSearch parseBody .threw = [] ∧
    mangaLivreSearch parseBody (.resp false body) = [] := by
  refine ⟨rfl, rfl, rfl, rfl, rfl, rfl⟩

/-! ## Claim C9: `Provider.getTorrentInfoHash` -/

/-- `isValidMagnetLink` type guard (`link.startsWith("magnet:?") &&
link.length > 20`). -/
def isValidMagnetLink (link : String) : Bool :=
  "magnet:?".isPrefixOf link && decide (link.length > 20)

/-- Hex digit, the class `[a-fA-F0-9]`. -/
def isHexC (c : Char) : Bool :=
  c.isDigit || ('a' ≤ c && c ≤ 'f') || ('A' ≤ c && c ≤ 'F')

/-- `isValidInfoHash` type guard (`/^[a-fA-F0-9]{40}$/`). -/
def isValidInfoHash (h : String) : Bool :=
  decide (h.length = 40) && h.toList.all isHexC

/-- `INFO_HASH = /btih:([a-fA-F0-9]{40})/i`, leftmost match. -/
def matchInfoHash (s : List Char) : Option (List Char) :=
  scanFirst (fun _ t =>
    match stripCI "btih:".toList t with
    | some (_, r) =>
      let h := r.take 40
      if decide (h.length = 40) && h.all isHexC then some h else none
    | none => none) none s

/-- `TorrentParser.extractInfoHash`. -/
def extractInfoHash (magnetLink : String) : String :=
  if !isValidMagnetLink magnetLink then ""
  else
    match matchInfoHash magnetLink.toList with
    | some h => if isValidInfoHash (String.mk h) then String.mk h else ""
    | none => ""

def EXAMPLE_HASH : String := "1234567890abcdef1234567890abcdef12345678"

/-- `Provider.getTorrentInfoHash` (async, but pure in its inputs). -/
def getTorrentInfoHash (t : AnimeTorrentR) : String :=
  if !(t.infoHash = "") then t.infoHash
  else
    let h := if !(t.magnetLink = "") then extractInfoHash t.magnetLink else ""
    if !(h = "") then h
    else if t.magnetLink = "" && t.infoHash = "" then EXAMPLE_HASH
    else ""

/-- C9 counterexample: the claim's final clause says the returned value is
always empty, the placeholder, or a 40-hex-digit string; but a torrent whose
`infoHash` field is the (non-hash) string "zz" gets "zz" returned verbatim. -/
theorem c9_counterexample :
    getTorrentInfoHash ⟨"", "", "zz", "", false, 0, "", ""⟩ = "zz" ∧
      ¬("zz" = "" ∨ "zz" = EXAMPLE_HASH ∨ isValidInfoHash "zz" = true) := by
  constructor
  · decide
  · decide

theorem extractInfoHash_empty_or_hex (magnetLink : String) :
    extractInfoHash magnetLink = "" ∨
      isValidInfoHash (extractInfoHash magnetLink) = true := by
  unfold extractInfoHash
  cases hm : isValidMagnetLink magnetLink with
  | false => left; rfl
  | true =>
    simp only [Bool.not_true, Bool.false_eq_true, if_false]
    cases hh : matchInfoHash magnetLink.toList with
    | none => left; rfl
    | some h =>
      cases hv : isValidInfoHash (String.mk h) with
      | false => left; simp [hv]
      | true => right; simp [hv]

/-- C9 (amended): (a) a torrent with both `infoHash` and `magnetLink`
absent/empty gets the fixed placeholder; (b) a torrent with a magnet link in
which the `btih:` pattern finds no 40-hex-digit hash and with an empty
`infoHash` gets the empty string; (c) whenever the stored `infoHash` field is
empty — the case the code itself produces — the returned value is empty, the
placeholder, or a string of exactly 40 hexadecimal characters.  (The original
claim asserted (c) for every torrent; `c9_counterexample` refutes that.) -/
theorem c9_info_hash_amended (t : AnimeTorrentR) :
    (t.infoHash = "" ∧ t.magnetLink = "" → getTorrentInfoHash t = EXAMPLE_HASH) ∧
    (t.infoHash = "" ∧ t.magnetLink ≠ "" ∧ matchInfoHash t.magnetLink.toList = none →
      getTorrentInfoHash t = "") ∧
    (t.infoHash = "" →
      getTorrentInfoHash t = "" ∨ getTorrentInfoHash t = EXAMPLE_HASH ∨
        isValidInfoHash (getTorrentInfoHash t) = true) := by
  refine ⟨?_, ?_, ?_⟩
  · rintro ⟨hi, hm⟩
    unfold getTorrentInfoHash
    simp [hi, hm]
  · rintro ⟨hi, hm, hmatch⟩
    have hmatch2 : matchInfoHash t.magnetLink.data = none := hmatch
    have hext : extractInfoHash t.magnetLink = "" := by
      unfold extractInfoHash
      cases hv : isValidMagnetLink t.magnetLink with
      | false => rfl
      | true => simp [hmatch, hmatch2]
    unfold getTorrentInfoHash
    simp [hi, hm, hext]
  · intro hi
    unfold getTorrentInfoHash
    by_cases hm : t.magnetLink = ""
    · simp [hi, hm]
    · by_cases hcase : extractInfoHash t.magnetLink = ""
      · simp [hi, hm, hcase]
      · rcases extractInfoHash_empty_or_hex t.magnetLink with hE | hE
        · exact absurd hE hcase
        · simp [hi, hm, hcase, hE]

/-- Witness for C9 (amended) at a torrent with both fields empty: the
placeholder hash is returned. -/
theorem c9_info_hash_amended_witness :
    getTorrentInfoHash ⟨"", "", "", "", false, 0, "", ""⟩ = EXAMPLE_HASH :=
  (c9_info_hash_amended ⟨"", "", "", "", false, 0, "", ""⟩).1 ⟨rfl, rfl⟩

/-! ## Claim C8: `Provider.smartSearch` filtering -/

structure SmartSearchOpts where
  episodeNumber : Option Int
  resolution : Option String
  batch : Bool
deriving DecidableEq

/-- `Provider.applySmartSearchFilters`: the filter predicates are assembled
in the code's order (episode number, resolution, batch; each only when
active) and applied by `filters.reduce(filter)`. -/
def applySmartSearchFilters (results : List AnimeTorrentR) (opts : SmartSearchOpts) :
    List AnimeTorrentR :=
  let epFilters : List (AnimeTorrentR → Bool) :=
    match opts.episodeNumber with
    | some n =>
      if decide (n ≠ 0) && decide (n > 0) then
        [fun t => decide (t.episodeNumber = n) || t.isBatch ||
          decide (t.episodeNumber = -1)]
      else []
    | none => []
  let resFilters : List (AnimeTorrentR → Bool) :=
    match opts.resolution with
    | some r =>
      if decide (r ≠ "") then
        [fun t => decide (t.resolution = "") || jsIncludes t.resolution r]
      else []
    | none => []
  let batchFilters : List (AnimeTorrentR → Bool) :=
    if opts.batch then [fun t => t.isBatch] else []
  (epFilters ++ resFilters ++ batchFilters).foldl (fun acc f => acc.filter f) results

/-- `Provider.smartSearch` downstream of the underlying `search` call: the
claim quantifies over the search-result list, so the list is a parameter. -/
def smartSearchFromResults (results : List AnimeTorrentR) (opts : SmartSearchOpts) :
    List AnimeTorrentR :=
  if results.length = 0 then [] else applySmartSearchFilters results opts

theorem foldl_filter_sublist (fs : List (α → Bool)) :
    ∀ l : List α, List.Sublist (fs.foldl (fun acc f => acc.filter f) l) l := by
  induction fs with
  | nil => intro l; exact List.Sublist.refl l
  | cons f fs ih =>
    intro l
    simp only [List.foldl_cons]
    exact (ih (l.filter f)).trans (List.filter_sublist l)

theorem foldl_filter_mem_true (fs : List (α → Bool)) :
    ∀ (l : List α) (f : α → Bool), f ∈ fs →
      ∀ t ∈ fs.foldl (fun acc g => acc.filter g) l, f t = true := by
  induction fs with
  | nil => intro l f hf; cases hf
  | cons g fs ih =>
    intro l f hf t ht
    simp only [List.foldl_cons] at ht
    rcases List.mem_cons.mp hf with rfl | hf2
    · have hsub := foldl_filter_sublist fs (l.filter f)
      exact (List.mem_filter.mp (hsub.subset ht)).2
    · exact ih (l.filter g) f hf2 t ht

theorem jsIncludes_empty_needle (s : String) : jsIncludes s "" = true := by
  show containsL [] s.toList = true
  cases s.toList with
  | nil => rfl
  | cons c t => rfl

/-- C8: the list returned by `smartSearch` is a subsequence of the
underlying search results, and every returned torrent satisfies all active
filters: `isBatch` when `opts.batch` is set; episode number equal to the
requested one, or a batch, or `-1`, when `opts.episodeNumber > 0`; and an
empty resolution or one containing `opts.resolution` when that is set. -/
theorem c8_smart_search_filters (results : List AnimeTorrentR)
    (opts : SmartSearchOpts) :
    List.Sublist (smartSearchFromResults results opts) results ∧
    ∀ t ∈ smartSearchFromResults results opts,
      (opts.batch = true → t.isBatch = true) ∧
      (∀ n : Int, opts.episodeNumber = some n → 0 < n →
        (t.episodeNumber = n ∨ t.isBatch = true ∨ t.episodeNumber = -1)) ∧
      (∀ r : String, opts.resolution = some r →
        (t.resolution = "" ∨ jsIncludes t.resolution r = true)) := by
  unfold smartSearchFromResults
  by_cases h0 : results.length = 0
  · simp [h0]
  · rw [if_neg h0]
    unfold applySmartSearchFilters
    constructor
    · exact foldl_filter_sublist _ results
    · intro t ht
      refine ⟨?_, ?_, ?_⟩
      · intro hb
        have hf : (fun t : AnimeTorrentR => t.isBatch) ∈
            ((match opts.episodeNumber with
              | some n =>
                if decide (n ≠ 0) && decide (n > 0) then
                  [fun t : AnimeTorrentR => decide (t.episodeNumber = n) || t.isBatch ||
                    decide (t.episodeNumber = -1)]
                else []
              | none => []) ++
             (match opts.resolution with
              | some r =>
                if decide (r ≠ "") then
                  [fun t : AnimeTorrentR => decide (t.resolution = "") ||
                    jsIncludes t.resolution r]
                else []
              | none => []) ++
             (if opts.batch then [fun t : AnimeTorrentR => t.isBatch] else [])) := by
          simp [hb]
        exact foldl_filter_mem_true _ results _ hf t ht
      · intro n hn hpos
        have hne : n ≠ 0 := by omega
        have hf : (fun t : AnimeTorrentR => decide (t.episodeNumber = n) || t.isBatch ||
            decide (t.episodeNumber = -1)) ∈
            ((match opts.episodeNumber with
              | some n =>
                if decide (n ≠ 0) && decide (n > 0) then
                  [fun t : AnimeTorrentR => decide (t.episodeNumber = n) || t.isBatch ||
                    decide (t.episodeNumber = -1)]
                else []
              | none => []) ++
             (match opts.resolution with
              | some r =>
                if decide (r ≠ "") then
                  [fun t : AnimeTorrentR => decide (t.resolution = "") ||
                    jsIncludes t.resolution r]
                else []
              | none => []) ++
             (if opts.batch then [fun t : AnimeTorrentR => t.isBatch] else [])) := by
          simp [hn, hne, hpos]
        have hval := foldl_filter_mem_true _ results _ hf t ht
        simp only [Bool.or_eq_true, decide_eq_true_eq] at hval
        tauto
      · intro r hr
        by_cases hre : r = ""
        · exact Or.inr (hre ▸ jsIncludes_empty_needle t.resolution)
        · have hf : (fun t : AnimeTorrentR => decide (t.resolution = "") ||
              jsIncludes t.resolution r) ∈
              ((match opts.episodeNumber with
                | some n =>
                  if decide (n ≠ 0) && decide (n > 0) then
                    [fun t : AnimeTorrentR => decide (t.episodeNumber = n) || t.isBatch ||
                      decide (t.episodeNumber = -1)]
                  else []
                | none => []) ++
               (match opts.resolution with
                | some r =>
                  if decide (r ≠ "") then
                    [fun t : AnimeTorrentR => decide (t.resolution = "") ||
                      jsIncludes t.resolution r]
                  else []
                | none => []) ++
               (if opts.batch then [fun t : AnimeTorrentR => t.isBatch] else [])) := by
            simp [hr, hre]
          have hval := foldl_filter_mem_true _ results _ hf t ht
          simpa using hval

/-- Witness for C8 at a one-element result list and fully active options. -/
theorem c8_smart_search_filters_witness :
    (List.Sublist (smartSearchFromResults [⟨"n", "m", "", "1080p", true, -1, "", ""⟩]
        ⟨some 5, some "1080p", true⟩)
      [⟨"n", "m", "", "1080p", true, -1, "", ""⟩]) ∧
    ((⟨"n", "m", "", "1080p", true, -1, "", ""⟩ : AnimeTorrentR).episodeNumber = 5 ∨
      (⟨"n", "m", "", "1080p", true, -1, "", ""⟩ : AnimeTorrentR).isBatch = true ∨
      (⟨"n", "m", "", "1080p", true, -1, "", ""⟩ : AnimeTorrentR).episodeNumber = -1) := by
  have h := c8_smart_search_filters [⟨"n", "m", "", "1080p", true, -1, "", ""⟩]
    ⟨some 5, some "1080p", true⟩
  exact ⟨h.1, ((h.2 ⟨"n", "m", "", "1080p", true, -1, "", ""⟩ (by decide)).2.1 5 rfl
    (by decide))⟩

/-! ## Claim C10: MangaLivre `findChapters` / `sortAndIndexChapters`

Chapter elements (`.wp-manga-chapter`) are modelled by the queries the code
performs (`element.find("a")`, its text and href).  `parseFloat` on the
chapter strings (digits, dots and commas, after `replace(',', '.')`) is
modelled exactly as a scaled decimal `(mantissa : Int, decimals : Nat)`
denoting `mantissa / 10 ^ decimals`; the comparator `numA - numB` then
induces the total preorder `decLe`.  `Array.prototype.sort` is modelled by
the stable insertion sort `sortChapters` (see the header note). -/

structure MLElem where
  hasLink : Bool
  linkText : String
  linkHref : String

def MLDoc := String → List MLElem

/-- The regex class `[\d\.,]`. -/
def isChapNumC (c : Char) : Bool := c.isDigit || c = '.' || c = ','

/-- One attempt of `/cap[íi]tulo\s*([\d\.,]+)/i`. -/
def capTituloStep (_ : Option Char) (t : List Char) : Option (List Char) :=
  match stripCI "cap".toList t with
  | none => none
  | some (_, r1) =>
    match r1 with
    | c :: r2 =>
      if lowC c = 'í' || lowC c = 'i' then
        match stripCI "tulo".toList r2 with
        | none => none
        | some (_, r3) =>
          let ws := splitRun isSpaceC r3
          let grp := splitRun isChapNumC ws.2
          if grp.1.isEmpty then none else some grp.1
      else none
    | [] => none

def matchCapTitulo (s : List Char) : Option (List Char) :=
  scanFirst capTituloStep none s

/-- One attempt of `/capitulo-([\d\.,]+)/i`. -/
def capHrefStep (_ : Option Char) (t : List Char) : Option (List Char) :=
  match stripCI "capitulo-".toList t with
  | none => none
  | some (_, r) =>
    let grp := splitRun isChapNumC r
    if grp.1.isEmpty then none else some grp.1

def matchCapHref (s : List Char) : Option (List Char) :=
  scanFirst capHrefStep none s

structure ChapterR where
  id : String
  url : String
  title : String
  chapter : String
  index : Nat
  language : String
deriving DecidableEq

/-- `Provider.parseChapters`. -/
def parseChapters (elements : List MLElem) : List ChapterR :=
  elements.filterMap fun e =>
    if !e.hasLink then none
    else
      let title := jsTrim e.linkText
      let href := jsTrim e.linkHref
      if title ≠ "" ∧ href ≠ "" then
        match (matchCapTitulo title.toList).orElse fun _ =>
            matchCapHref href.toList with
        | some grp => some ⟨href, href, title, String.mk grp, 0, "pt-BR"⟩
        | none => none
      else none

/-- `chapter.replace(',', '.')` (first occurrence only). -/
def replaceFirstComma : List Char → List Char
  | [] => []
  | c :: t => if c = ',' then '.' :: t else c :: replaceFirstComma t

/-- `parseFloat` on strings over digits/dots (the characters a chapter field
can contain after the comma replacement): integer digits, optional dot,
fraction digits; `none` models `NaN`. -/
def parseFloatDec (l : List Char) : Option (Int × Nat) :=
  let ip := splitRun isDigitC l
  match ip.2 with
  | '.' :: r2 =>
    let fp := splitRun isDigitC r2
    if ip.1.isEmpty && fp.1.isEmpty then none
    else some ((digitsVal (ip.1 ++ fp.1) : Int), fp.1.length)
  | _ => if ip.1.isEmpty then none else some ((digitsVal ip.1 : Int), 0)

/-- `parseFloat(chapter.replace(',', '.'))`. -/
def chapterKey (c : ChapterR) : Option (Int × Nat) :=
  parseFloatDec (replaceFirstComma c.chapter.toList)

def keyD (c : ChapterR) : Int × Nat := (chapterKey c).getD (0, 0)

/-- `p ≤ q` as scaled decimals: `p.1 / 10^p.2 ≤ q.1 / 10^q.2`, by
cross-multiplication (exact, no floating point). -/
def decLe (p q : Int × Nat) : Prop := p.1 * 10 ^ q.2 ≤ q.1 * 10 ^ p.2

instance (p q : Int × Nat) : Decidable (decLe p q) := by
  unfold decLe; infer_instance

/-- `decLe` is the comparison of the denoted rational values. -/
theorem decLe_iff_value (p q : Int × Nat) :
    decLe p q ↔ (p.1 : ℚ) / 10 ^ p.2 ≤ (q.1 : ℚ) / 10 ^ q.2 := by
  unfold decLe
  rw [div_le_div_iff (by positivity) (by positivity)]
  constructor <;> intro h <;> exact_mod_cast h

theorem decLe_total (p q : Int × Nat) : decLe p q ∨ decLe q p :=
  le_total (p.1 * 10 ^ q.2) (q.1 * 10 ^ p.2)

theorem decLe_trans {p q r : Int × Nat} (h1 : decLe p q) (h2 : decLe q r) :
    decLe p r := by
  unfold decLe at h1 h2 ⊢
  have hq : (0 : Int) < 10 ^ q.2 := pow_pos (by norm_num) _
  have hp : (0 : Int) < 10 ^ p.2 := pow_pos (by norm_num) _
  have hr : (0 : Int) < 10 ^ r.2 := pow_pos (by norm_num) _
  have h3 : p.1 * 10 ^ r.2 * 10 ^ q.2 ≤ r.1 * 10 ^ p.2 * 10 ^ q.2 := by
    calc p.1 * 10 ^ r.2 * 10 ^ q.2 = p.1 * 10 ^ q.2 * 10 ^ r.2 := by ring
      _ ≤ q.1 * 10 ^ p.2 * 10 ^ r.2 := mul_le_mul_of_nonneg_right h1 hr.le
      _ = q.1 * 10 ^ r.2 * 10 ^ p.2 := by ring
      _ ≤ r.1 * 10 ^ q.2 * 10 ^ p.2 := mul_le_mul_of_nonneg_right h2 hp.le
      _ = r.1 * 10 ^ p.2 * 10 ^ q.2 := by ring
  exact le_of_mul_le_mul_right h3 hq

/-! ### IEEE-754 binary64 rounding of `parseFloat`

JS numbers are binary64 doubles, so the comparator `(a, b) => numA - numB`
compares the *rounded* values: decimals agreeing once rounded to 53-bit
precision tie, and the stable sort keeps them in document order.  The
conversion below rounds the exact decimal `M / 10^k` to the nearest double
(ties to even), the IEEE-754 semantics of a JS number literal / `parseFloat`
in the normal range.  A double is represented as `(m, e) : Nat × Int`
denoting `m * 2 ^ (e - 52)` with `2^52 ≤ m < 2^53` (or `m = 0` for zero);
all arithmetic is exact integer arithmetic. -/

/-- `M / 10^k ≥ 2^e`, by clearing denominators (one of the two shifts is 0). -/
def ge2 (M k : Nat) (e : Int) : Bool :=
  10 ^ k * 2 ^ e.toNat ≤ M * 2 ^ (-e).toNat

/-- Walk the exponent down until `2^e ≤ M/10^k`. -/
def findExpGo (M k : Nat) : Nat → Int → Int
  | 0, e => e
  | f + 1, e => if ge2 M k e then e else findExpGo M k f (e - 1)

/-- Fuel-based binary logarithm (computable by kernel reduction). -/
def log2Go : Nat → Nat → Nat
  | 0, _ => 0
  | f + 1, n => if 2 ≤ n then log2Go f (n / 2) + 1 else 0

def log2F (n : Nat) : Nat := log2Go n n

/-- The binade of `M / 10^k` (for `M ≥ 1`): the unique `e` with
`2^e ≤ M/10^k < 2^(e+1)`.  The walk starts above (`M/10^k ≤ M < 2^(log2 M + 1)`)
and `M/10^k ≥ 10^-k > 2^(-4k-1)` bounds the number of steps. -/
def findExp (M k : Nat) : Int :=
  findExpGo M k (log2F M + 4 * k + 4) ((log2F M : Int) + 1)

/-- Round `A / B` to the nearest integer, ties to even. -/
def roundHalfEven (A B : Nat) : Nat :=
  let q := A / B
  let r := A % B
  if 2 * r < B then q
  else if B < 2 * r then q + 1
  else if q % 2 = 0 then q else q + 1

/-- Round the exact decimal `M / 10^k` to the nearest binary64 double
(round-to-nearest, ties-to-even): pick the binade `e`, round the real
significand `(M/10^k) * 2^(52-e) = A/B ∈ [2^52, 2^53)` to an integer, and
re-normalise when rounding lands on `2^53`. -/
def doubleOfDec (M k : Nat) : Nat × Int :=
  if M = 0 then (0, 0)
  else
    let e := findExp M k
    let A := M * 2 ^ (52 - e).toNat
    let B := 10 ^ k * 2 ^ (e - 52).toNat
    let m := roundHalfEven A B
    if m = 2 ^ 53 then (2 ^ 52, e + 1) else (m, e)

/-- The double that JS `parseFloat` produces for a chapter field. -/
def chapterDouble (c : ChapterR) : Option (Nat × Int) :=
  (chapterKey c).map fun p => doubleOfDec p.1.toNat p.2

def keyDD (c : ChapterR) : Nat × Int := (chapterDouble c).getD (0, 0)

/-- Value order on doubles `(m, e) ↦ m * 2^(e-52)`, by clearing
denominators; `dLe_iff_value` shows it is exactly the comparison of the
denoted values, with no bound on `m` needed. -/
def dLe (p q : Nat × Int) : Prop :=
  p.1 * 2 ^ (p.2 - q.2).toNat ≤ q.1 * 2 ^ (q.2 - p.2).toNat

instance (p q : Nat × Int) : Decidable (dLe p q) := by
  unfold dLe; infer_instance

/-- `dLe` is the comparison of the denoted real values `m * 2^e` (the common
bias `2^-52` cancels). -/
theorem dLe_iff_value (p q : Nat × Int) :
    dLe p q ↔ (p.1 : ℚ) * 2 ^ p.2 ≤ (q.1 : ℚ) * 2 ^ q.2 := by
  have h2 : (0 : ℚ) < 2 := by norm_num
  have hxy : ((p.2 - q.2).toNat : Int) + q.2 = ((q.2 - p.2).toNat : Int) + p.2 := by
    omega
  unfold dLe
  constructor
  · intro h
    have hQ : (p.1 : ℚ) * 2 ^ (((p.2 - q.2).toNat : Nat) : Int) ≤
        (q.1 : ℚ) * 2 ^ (((q.2 - p.2).toNat : Nat) : Int) := by
      rw [zpow_natCast, zpow_natCast]
      exact_mod_cast h
    have hmul := mul_le_mul_of_nonneg_right hQ
      (le_of_lt (zpow_pos h2 (p.2 - (((p.2 - q.2).toNat : Nat) : Int))))
    calc (p.1 : ℚ) * 2 ^ p.2
        = (p.1 : ℚ) * 2 ^ (((p.2 - q.2).toNat : Nat) : Int) *
            2 ^ (p.2 - (((p.2 - q.2).toNat : Nat) : Int)) := by
          rw [mul_assoc, ← zpow_add₀ (ne_of_gt h2)]
          have hexp : (((p.2 - q.2).toNat : Nat) : Int) +
              (p.2 - (((p.2 - q.2).toNat : Nat) : Int)) = p.2 := by ring
          rw [hexp]
      _ ≤ (q.1 : ℚ) * 2 ^ (((q.2 - p.2).toNat : Nat) : Int) *
            2 ^ (p.2 - (((p.2 - q.2).toNat : Nat) : Int)) := hmul
      _ = (q.1 : ℚ) * 2 ^ q.2 := by
          rw [mul_assoc, ← zpow_add₀ (ne_of_gt h2)]
          have hexp : (((q.2 - p.2).toNat : Nat) : Int) +
              (p.2 - (((p.2 - q.2).toNat : Nat) : Int)) = q.2 := by omega
          rw [hexp]
  · intro h
    have hmul := mul_le_mul_of_nonneg_right h
      (le_of_lt (zpow_pos h2 ((((p.2 - q.2).toNat : Nat) : Int) - p.2)))
    have hQ : (p.1 : ℚ) * 2 ^ (((p.2 - q.2).toNat : Nat) : Int) ≤
        (q.1 : ℚ) * 2 ^ (((q.2 - p.2).toNat : Nat) : Int) := by
      calc (p.1 : ℚ) * 2 ^ (((p.2 - q.2).toNat : Nat) : Int)
          = (p.1 : ℚ) * 2 ^ p.2 * 2 ^ ((((p.2 - q.2).toNat : Nat) : Int) - p.2) := by
            rw [mul_assoc, ← zpow_add₀ (ne_of_gt h2)]
            have hexp : p.2 + ((((p.2 - q.2).toNat : Nat) : Int) - p.2) =
                (((p.2 - q.2).toNat : Nat) : Int) := by ring
            rw [hexp]
        _ ≤ (q.1 : ℚ) * 2 ^ q.2 * 2 ^ ((((p.2 - q.2).toNat : Nat) : Int) - p.2) := hmul
        _ = (q.1 : ℚ) * 2 ^ (((q.2 - p.2).toNat : Nat) : Int) := by
            rw [mul_assoc, ← zpow_add₀ (ne_of_gt h2)]
            have hexp : q.2 + ((((p.2 - q.2).toNat : Nat) : Int) - p.2) =
                (((q.2 - p.2).toNat : Nat) : Int) := by omega
            rw [hexp]
    rw [zpow_natCast, zpow_natCast] at hQ
    exact_mod_cast hQ

theorem dLe_total (p q : Nat × Int) : dLe p q ∨ dLe q p := by
  rw [dLe_iff_value, dLe_iff_value]
  exact le_total _ _

theorem dLe_trans {p q r : Nat × Int} (h1 : dLe p q) (h2 : dLe q r) : dLe p r := by
  rw [dLe_iff_value] at h1 h2 ⊢
  exact le_trans h1 h2

/-- The boolean comparator derived from `(a, b) => numA - numB` on the
rounded double values. -/
def chLe (a b : ChapterR) : Bool := decide (dLe (keyDD a) (keyDD b))

/-- Stable insertion for `Array.prototype.sort` with the numeric comparator:
processing the array left to right, each element goes after every earlier
element whose key is less than or equal to its own. -/
def insertCh (x : ChapterR) : List ChapterR → List ChapterR
  | [] => [x]
  | y :: ys => if chLe y x then y :: insertCh x ys else x :: y :: ys

def sortChapters (l : List ChapterR) : List ChapterR :=
  l.foldl (fun acc x => insertCh x acc) []

/-- `chapters.map((chapter, index) => ({...chapter, index}))`. -/
def reindexFrom (n : Nat) : List ChapterR → List ChapterR
  | [] => []
  | c :: t => { c with index := n } :: reindexFrom (n + 1) t

/-- `Provider.sortAndIndexChapters`. -/
def sortAndIndexChapters (l : List ChapterR) : List ChapterR :=
  reindexFrom 0 (sortChapters l)

/-- `/[a-zA-Z-]/.test(mangaId)`. -/
def mlIsValidMangaId (id : String) : Bool :=
  id.toList.any fun c => c.isAlpha || c = '-'

/-- The direct-scrape fallback branch of `findChapters`. -/
def mlFallback (body : String) (loadDoc : String → MLDoc) : List ChapterR :=
  let directElements := loadDoc body ".listing-chapters_wrap .wp-manga-chapter"
  if directElements.length > 0 then sortAndIndexChapters (parseChapters directElements)
  else []

/-- `Provider.findChapters`, parametrised by the fetch outcomes of the manga
page and of the AJAX chapters endpoint and by the `LoadDoc` capability.  A
thrown fetch is caught by the outer try/catch and yields `[]`. -/
def findChaptersML (mangaId : String) (pageResp ajaxResp : FetchResult)
    (loadDoc : String → MLDoc) : List ChapterR :=
  if !mlIsValidMangaId mangaId then []
  else
    match pageResp with
    | .threw => []
    | .resp ok body =>
      if !ok then []
      else
        match ajaxResp with
        | .threw => []
        | .resp aok abody =>
          if aok then
            let elements := loadDoc abody ".wp-manga-chapter"
            if elements.length > 0 then
              sortAndIndexChapters (parseChapters elements)
            else mlFallback body loadDoc
          else mlFallback body loadDoc

/-- The pre-sort chapter list selected by `findChapters`' branch structure
(`[]` on the failure branches). -/
def rawChaptersML (mangaId : String) (pageResp ajaxResp : FetchResult)
    (loadDoc : String → MLDoc) : List ChapterR :=
  if !mlIsValidMangaId mangaId then []
  else
    match pageResp with
    | .threw => []
    | .resp ok body =>
      if !ok then []
      else
        match ajaxResp with
        | .threw => []
        | .resp aok abody =>
          if aok then
            let elements := loadDoc abody ".wp-manga-chapter"
            if elements.length > 0 then parseChapters elements
            else
              let directElements := loadDoc body ".listing-chapters_wrap .wp-manga-chapter"
              if directElements.length > 0 then parseChapters directElements else []
          else
            let directElements := loadDoc body ".listing-chapters_wrap .wp-manga-chapter"
            if directElements.length > 0 then parseChapters directElements else []

theorem findChaptersML_eq (mangaId : String) (pageResp ajaxResp : FetchResult)
    (loadDoc : String → MLDoc) :
    findChaptersML mangaId pageResp ajaxResp loadDoc =
      sortAndIndexChapters (rawChaptersML mangaId pageResp ajaxResp loadDoc) := by
  unfold findChaptersML rawChaptersML mlFallback
  cases hid : mlIsValidMangaId mangaId
  · rfl
  · cases pageResp with
    | threw => rfl
    | resp ok body =>
      cases ok
      · rfl
      · cases ajaxResp with
        | threw => rfl
        | resp aok abody =>
          cases aok
          · by_cases hlen : (loadDoc body ".listing-chapters_wrap .wp-manga-chapter").length > 0 <;>
              simp [hlen, sortAndIndexChapters, sortChapters, reindexFrom]
          · by_cases hlen2 : (loadDoc abody ".wp-manga-chapter").length > 0
            · simp [hlen2]
            · by_cases hlen : (loadDoc body ".listing-chapters_wrap .wp-manga-chapter").length > 0 <;>
                simp [hlen, hlen2, sortAndIndexChapters, sortChapters, reindexFrom]

theorem mem_insertCh {z x : ChapterR} :
    ∀ {l : List ChapterR}, z ∈ insertCh x l → z = x ∨ z ∈ l := by
  intro l
  induction l with
  | nil =>
    intro h
    simp only [insertCh, List.mem_singleton] at h
    exact Or.inl h
  | cons y ys ih =>
    intro h
    by_cases hc : chLe y x
    · rw [insertCh, if_pos hc] at h
      rcases List.mem_cons.mp h with rfl | h2
      · exact Or.inr (List.mem_cons_self _ _)
      · rcases ih h2 with h3 | h3
        · exact Or.inl h3
        · exact Or.inr (List.mem_cons_of_mem _ h3)
    · rw [insertCh, if_neg hc] at h
      rcases List.mem_cons.mp h with rfl | h2
      · exact Or.inl rfl
      · exact Or.inr h2

theorem pairwise_insertCh (x : ChapterR) (l : List ChapterR)
    (hl : List.Pairwise (fun a b => dLe (keyDD a) (keyDD b)) l) :
    List.Pairwise (fun a b => dLe (keyDD a) (keyDD b)) (insertCh x l) := by
  induction l with
  | nil => simp [insertCh]
  | cons y ys ih =>
    rcases List.pairwise_cons.mp hl with ⟨hy, hys⟩
    by_cases hc : chLe y x
    · rw [insertCh, if_pos hc]
      refine List.pairwise_cons.mpr ⟨?_, ih hys⟩
      intro z hz
      rcases mem_insertCh hz with rfl | hz2
      · exact of_decide_eq_true hc
      · exact hy z hz2
    · rw [insertCh, if_neg hc]
      refine List.pairwise_cons.mpr ⟨?_, hl⟩
      have hxy : dLe (keyDD x) (keyDD y) := by
        rcases dLe_total (keyDD x) (keyDD y) with h | h
        · exact h
        · exact absurd (decide_eq_true h) hc
      intro z hz
      rcases List.mem_cons.mp hz with rfl | hz2
      · exact hxy
      · exact dLe_trans hxy (hy z hz2)

theorem pairwise_foldl_insert (l : List ChapterR) :
    ∀ acc : List ChapterR, List.Pairwise (fun a b => dLe (keyDD a) (keyDD b)) acc →
      List.Pairwise (fun a b => dLe (keyDD a) (keyDD b))
        (l.foldl (fun a x => insertCh x a) acc) := by
  induction l with
  | nil => intro acc hacc; exact hacc
  | cons x t ih =>
    intro acc hacc
    simp only [List.foldl_cons]
    exact ih (insertCh x acc) (pairwise_insertCh x acc hacc)

theorem pairwise_sortChapters (l : List ChapterR) :
    List.Pairwise (fun a b => dLe (keyDD a) (keyDD b)) (sortChapters l) :=
  pairwise_foldl_insert l [] List.Pairwise.nil

theorem keyD_reindex (c : ChapterR) (n : Nat) : keyD { c with index := n } = keyD c := rfl

theorem keyDD_reindex (c : ChapterR) (n : Nat) :
    keyDD { c with index := n } = keyDD c := rfl

theorem mem_reindexFrom {z : ChapterR} :
    ∀ {l : List ChapterR} {n : Nat}, z ∈ reindexFrom n l →
      ∃ w ∈ l, z = { w with index := z.index } := by
  intro l
  induction l with
  | nil => intro n h; simp [reindexFrom] at h
  | cons c t ih =>
    intro n h
    rw [reindexFrom] at h
    rcases List.mem_cons.mp h with rfl | h2
    · exact ⟨c, List.mem_cons_self _ _, rfl⟩
    · rcases ih h2 with ⟨w, hw, hz⟩
      exact ⟨w, List.mem_cons_of_mem _ hw, hz⟩

theorem pairwise_reindexFrom :
    ∀ (l : List ChapterR) (n : Nat),
      List.Pairwise (fun a b => dLe (keyDD a) (keyDD b)) l →
      List.Pairwise (fun a b => dLe (keyDD a) (keyDD b)) (reindexFrom n l) := by
  intro l
  induction l with
  | nil => intro n _; exact List.Pairwise.nil
  | cons c t ih =>
    intro n h
    rcases List.pairwise_cons.mp h with ⟨hc, ht⟩
    rw [reindexFrom]
    refine List.pairwise_cons.mpr ⟨?_, ih (n + 1) ht⟩
    intro z hz
    rcases mem_reindexFrom hz with ⟨w, hw, hzw⟩
    have h1 : keyDD z = keyDD w := by rw [hzw]; rfl
    rw [keyDD_reindex, h1]
    exact hc w hw

theorem reindexFrom_get :
    ∀ (l : List ChapterR) (n i : Nat) (h : i < (reindexFrom n l).length),
      ((reindexFrom n l).get ⟨i, h⟩).index = n + i := by
  intro l
  induction l with
  | nil => intro n i h; rw [reindexFrom] at h; simp at h
  | cons c t ih =>
    intro n i h
    cases i with
    | zero => rfl
    | succ j =>
      simp only [reindexFrom] at h ⊢
      have hj : j < (reindexFrom (n + 1) t).length := by
        simpa using Nat.lt_of_succ_lt_succ (by simpa using h)
      have := ih (n + 1) j hj
      simp only [List.get]
      rw [this]
      omega

/-- Concrete `LoadDoc` capability for the C10 counterexample: two chapters
rounding to the same double `2^53` but with distinct exact values, the
larger one first in document order. -/
def c10CounterDoc : String → MLDoc := fun body sel =>
  if body = "A" ∧ sel = ".wp-manga-chapter" then
    [⟨true, "Capítulo 9007199254740993", "https://m/x/capitulo-9007199254740993/"⟩,
     ⟨true, "Capítulo 9007199254740992.5", "https://m/x/capitulo-9007199254740992.5/"⟩]
  else []

/-- C10 counterexample: the chapters `9007199254740993` (= 2^53 + 1) and
`9007199254740992.5` (= 2^53 + 1/2) both round to the double `2^53`
(ties-to-even resp. nearest), so the comparator `numA - numB` returns 0, the
stable sort keeps document order, and `findChapters` returns them with exact
decimal values strictly decreasing — not sorted in non-decreasing order of
"the numeric value parsed as a decimal number", refuting the claim as
frozen.  (`decLe`/`keyD` is the exact decimal order the claim describes.) -/
theorem c10_counterexample :
    (findChaptersML "dandadan" (.resp true "P") (.resp true "A") c10CounterDoc).map
        (fun c => c.chapter) = ["9007199254740993", "9007199254740992.5"] ∧
    ¬ List.Pairwise (fun a b => decLe (keyD a) (keyD b))
        (findChaptersML "dandadan" (.resp true "P") (.resp true "A") c10CounterDoc) := by
  constructor
  · decide
  · decide

/-- The chapter field parses to a number that is zero or has magnitude
between `2^-200` and `2^200` — comfortably inside the IEEE-754 binary64
normal range `[2^-1022, 2^1024)`, where `doubleOfDec` is exactly the
rounding `parseFloat` performs (no subnormals, no overflow to Infinity). -/
def chapterDoubleSafeB (c : ChapterR) : Bool :=
  match chapterKey c with
  | some p =>
    decide (p.1 = 0) ||
      (decide (10 ^ p.2 ≤ p.1.toNat * 2 ^ 200) &&
       decide (p.1.toNat ≤ 2 ^ 200 * 10 ^ p.2))
  | none => false

/-- C10 (amended): under the assumption that every chapter field selected by
`findChapters` parses to a (non-NaN) number that is zero or of magnitude in
`[2^-200, 2^200]` (inside the double normal range) — the regime in which the
JS comparator `numA - numB` is a consistent comparison of the rounded
doubles and `Array.prototype.sort` is specified — the returned list is sorted in non-decreasing order of the
binary64 double value `parseFloat` assigns to the chapter field (with the
first ',' read as the decimal point), and the `index` field of the element
at position `i` equals `i`. -/
theorem c10_chapters_sorted_indexed_amended (mangaId : String)
    (pageResp ajaxResp : FetchResult) (loadDoc : String → MLDoc)
    (h : ∀ c ∈ rawChaptersML mangaId pageResp ajaxResp loadDoc,
      chapterDoubleSafeB c = true) :
    List.Pairwise (fun a b => dLe (keyDD a) (keyDD b))
      (findChaptersML mangaId pageResp ajaxResp loadDoc) ∧
    ∀ (i : Nat) (hi : i < (findChaptersML mangaId pageResp ajaxResp loadDoc).length),
      ((findChaptersML mangaId pageResp ajaxResp loadDoc).get ⟨i, hi⟩).index = i := by
  rw [findChaptersML_eq]
  constructor
  · exact pairwise_reindexFrom _ 0 (pairwise_sortChapters _)
  · intro i hi
    have hg := reindexFrom_get (sortChapters (rawChaptersML mangaId pageResp ajaxResp loadDoc)) 0 i hi
    simpa using hg

/-- Concrete `LoadDoc` capability for the C10 witness: the AJAX body "A"
holds two chapter rows (chapters "2" and "1,5", out of order). -/
def c10WitnessDoc : String → MLDoc := fun body sel =>
  if body = "A" ∧ sel = ".wp-manga-chapter" then
    [⟨true, "Capítulo 2", "https://m/x/capitulo-2/"⟩,
     ⟨true, "Capítulo 1,5", "https://m/x/capitulo-1,5/"⟩]
  else []

/-- Witness for C10 (amended): on the concrete document the returned list is
sorted by double value and its first element carries index 0. -/
theorem c10_chapters_sorted_indexed_witness :
    List.Pairwise (fun a b => dLe (keyDD a) (keyDD b))
      (findChaptersML "dandadan" (.resp true "P") (.resp true "A") c10WitnessDoc) ∧
    ((findChaptersML "dandadan" (.resp true "P") (.resp true "A") c10WitnessDoc).get
      ⟨0, by decide⟩).index = 0 := by
  have h := c10_chapters_sorted_indexed_amended "dandadan" (.resp true "P") (.resp true "A")
    c10WitnessDoc (by decide)
  exact ⟨h.1, h.2 0 (by decide)⟩

/-! ## Claim C7: statelessness and determinism of the provider operations

Each provider class holds only readonly configuration fields and no method
assigns to `this`; stateful code is embedded by explicit state passing, so
each operation takes the provider state and returns it alongside the result.
The fetch / LoadDoc capabilities are explicit parameters.  The claim's
determinism clause, however, is false as frozen: DarkMahou's
`createAnimeTorrent` (the torrent-object constructor every parsed torrent
goes through) sets `date: new Date().toISOString()`, a system-clock reading
that is *not* among the fetch/LoadDoc capabilities the claim fixes, so two
calls with identical arguments and identical fetch/LoadDoc responses differ
in the `date` field.  `createAnimeTorrent` is embedded below in full, with
the clock reading as the explicit input `now`. -/

structure AnimeProviderSettingsR where
  canSmartSearch : Bool
  smartSearchFilters : List String
  supportsAdult : Bool
  providerType : String
deriving DecidableEq

/-- DarkMahou `getSettings`. -/
def dmGetSettings : AnimeProviderSettingsR :=
  ⟨true, ["episodeNumber", "resolution", "query"], false, "main"⟩

def EXAMPLE_MAGNET : String :=
  "magnet:?xt=urn:btih:1234567890abcdef1234567890abcdef12345678&dn=Example+Anime+Episode+01+1080p"

/-- DarkMahou `getTorrentMagnetLink`. -/
def getTorrentMagnetLink (t : AnimeTorrentR) : String :=
  if !(t.magnetLink = "") then t.magnetLink
  else if t.magnetLink = "" && t.name = "" then EXAMPLE_MAGNET
  else ""

/-- DarkMahou `getLatest` (always empty for this provider). -/
def dmGetLatest : List AnimeTorrentR := []

/-- One attempt of `RESOLUTION = /\b(\d{3,4}p)\b/i`: a maximal word run of
3-4 digits followed by `p`/`P` at a word boundary.  The capture keeps the
original case. -/
def resolutionStep (prev : Option Char) (t : List Char) : Option (List Char) :=
  if prevNonWord prev then
    match t with
    | c :: _ =>
      if isDigitC c then
        let ds := splitRun isDigitC t
        if 3 ≤ ds.1.length && ds.1.length ≤ 4 then
          match ds.2 with
          | pc :: r2 =>
            if lowC pc = 'p' then
              match r2 with
              | [] => some (ds.1 ++ [pc])
              | d :: _ => if !isWordC d then some (ds.1 ++ [pc]) else none
            else none
          | [] => none
        else none
      else none
    | [] => none
  else none

/-- `TorrentParser.parseResolution`: the leftmost `RESOLUTION` capture, kept
only when it is one of the valid resolutions (a case-sensitive `includes`
check against the lowercase-`p` list). -/
def parseResolution (name : String) : String :=
  match scanFirst resolutionStep none name.toList with
  | some cap =>
    let s := String.mk cap
    if s = "480p" || s = "720p" || s = "1080p" || s = "1440p" || s = "4K" then s
    else ""
  | none => ""

/-- `TorrentParser.extractReleaseGroup`, via `RELEASE_GROUP = /^\[([^\]]+)\]/`
(anchored at the start of the name). -/
def extractReleaseGroup (name : String) : String :=
  match name.toList with
  | '[' :: rest =>
    let grp := splitRun (fun c => !(c = ']')) rest
    if grp.1.isEmpty then ""
    else
      match grp.2 with
      | ']' :: _ => String.mk grp.1
      | _ => ""
  | _ => ""

/-- The full object built by `Provider.createAnimeTorrent`
(darkmahou-provider.ts lines 697-733), every field included. -/
structure AnimeTorrentFull where
  name : String
  date : String
  size : Nat
  formattedSize : String
  seeders : Nat
  leechers : Nat
  downloadCount : Nat
  link : String
  downloadUrl : String
  magnetLink : String
  infoHash : String
  resolution : String
  isBatch : Bool
  episodeNumber : Int
  releaseGroup : String
  isBestRelease : Bool
  confirmed : Bool
deriving DecidableEq

/-- `Provider.createAnimeTorrent`: `now` is the system-clock reading
`new Date().toISOString()`, an external capability distinct from fetch and
LoadDoc. -/
def createAnimeTorrent (now name magnetLink pageURL resolution episodeTitle : String) :
    AnimeTorrentFull :=
  let infoHash := extractInfoHash magnetLink
  let parsedResolution :=
    if !(parseResolution name = "") then parseResolution name else resolution
  let isBatch := isBatchTorrent name episodeTitle
  let episodeNumber := extractEpisodeNumber name episodeTitle
  let releaseGroup := extractReleaseGroup name
  { name := name, date := now, size := 0, formattedSize := "N/A", seeders := 0,
    leechers := 0, downloadCount := 0, link := pageURL, downloadUrl := "",
    magnetLink := magnetLink, infoHash := infoHash, resolution := parsedResolution,
    isBatch := isBatch, episodeNumber := episodeNumber,
    releaseGroup := releaseGroup, isBestRelease := false, confirmed := true }

/-- C7 counterexample: `createAnimeTorrent` (cited by the claim) reads the
system clock for its `date` field, so two calls with identical arguments —
and identical responses from the fetch and LoadDoc capabilities, which it
does not consult at all — return different results when the clock has moved:
the determinism clause of the claim is false of the program. -/
theorem c7_counterexample :
    (createAnimeTorrent "2024-01-01T00:00:00.000Z" "Anime - 05 "
      "" "https://darkmahou.org/x/" "720p" "").date = "2024-01-01T00:00:00.000Z" ∧
    (createAnimeTorrent "2024-01-01T00:00:01.000Z" "Anime - 05 "
      "" "https://darkmahou.org/x/" "720p" "").date = "2024-01-01T00:00:01.000Z" ∧
    createAnimeTorrent "2024-01-01T00:00:00.000Z" "Anime - 05 "
        "" "https://darkmahou.org/x/" "720p" "" ≠
      createAnimeTorrent "2024-01-01T00:00:01.000Z" "Anime - 05 "
        "" "https://darkmahou.org/x/" "720p" "" := by
  refine ⟨rfl, rfl, by decide⟩

structure DarkmahouState where
  api : String
deriving DecidableEq

structure Q1NState where
  apiBase : String
deriving DecidableEq

structure MangaLivreState where
  baseUrl : String
deriving DecidableEq

def dmGetSettingsOp (s : DarkmahouState) : DarkmahouState × AnimeProviderSettingsR :=
  (s, dmGetSettings)

def dmSearchOp (s : DarkmahouState) (convQuery : String → String)
    (parseTorrents : String → List AnimeTorrentR) (searchFetch pageFetch : FetchResult)
    (query : String) : DarkmahouState × List AnimeTorrentR :=
  (s, darkmahouSearch convQuery parseTorrents searchFetch pageFetch query)

def dmSmartSearchOp (s : DarkmahouState) (results : List AnimeTorrentR)
    (opts : SmartSearchOpts) : DarkmahouState × List AnimeTorrentR :=
  (s, smartSearchFromResults results opts)

def dmGetTorrentInfoHashOp (s : DarkmahouState) (t : AnimeTorrentR) :
    DarkmahouState × String :=
  (s, getTorrentInfoHash t)

def dmGetTorrentMagnetLinkOp (s : DarkmahouState) (t : AnimeTorrentR) :
    DarkmahouState × String :=
  (s, getTorrentMagnetLink t)

def dmGetLatestOp (s : DarkmahouState) : DarkmahouState × List AnimeTorrentR :=
  (s, dmGetLatest)

def q1nSearchOp (s : Q1NState) (loadDoc : String → QDoc) (searchFetch : FetchResult) :
    Q1NState × List QSearchResult :=
  (s, q1nSearch loadDoc searchFetch)

def q1nFindEpisodeServerOp (s : Q1NState) (players : List (String × String))
    (server : String) : Q1NState × Except String EpisodeServerR :=
  (s, findEpisodeServerCore players server)

def mlSearchOp (s : MangaLivreState) (parseBody : String → List QSearchResult)
    (searchFetch : FetchResult) : MangaLivreState × List QSearchResult :=
  (s, mangaLivreSearch parseBody searchFetch)

def mlFindChaptersOp (s : MangaLivreState) (mangaId : String)
    (pageResp ajaxResp : FetchResult) (loadDoc : String → MLDoc) :
    MangaLivreState × List ChapterR :=
  (s, findChaptersML mangaId pageResp ajaxResp loadDoc)

/-- `createAnimeTorrent` as a stateful operation, its clock reading made an
explicit input. -/
def dmCreateAnimeTorrentOp (s : DarkmahouState)
    (now name magnetLink pageURL resolution episodeTitle : String) :
    DarkmahouState × AnimeTorrentFull :=
  (s, createAnimeTorrent now name magnetLink pageURL resolution episodeTitle)

/-- C7 (amended): every embedded provider operation is stateless — it
returns the provider state unchanged — and deterministic once *all* its
external inputs are fixed: calling it again from the state the first call
returned, with identical arguments, identical responses from the external
fetch/LoadDoc capabilities, and (for the torrent constructor) an identical
system-clock reading, yields the identical result.  The clock reading
consumed by `createAnimeTorrent`'s `date` field is the one external input
the original claim omitted (`c7_counterexample`). -/
theorem c7_provider_stateless_amended :
    (∀ s, (dmGetSettingsOp s).1 = s ∧
      dmGetSettingsOp (dmGetSettingsOp s).1 = dmGetSettingsOp s) ∧
    (∀ s cq pt sf pf q, (dmSearchOp s cq pt sf pf q).1 = s ∧
      dmSearchOp (dmSearchOp s cq pt sf pf q).1 cq pt sf pf q =
        dmSearchOp s cq pt sf pf q) ∧
    (∀ s res opts, (dmSmartSearchOp s res opts).1 = s ∧
      dmSmartSearchOp (dmSmartSearchOp s res opts).1 res opts =
        dmSmartSearchOp s res opts) ∧
    (∀ s t, (dmGetTorrentInfoHashOp s t).1 = s ∧
      dmGetTorrentInfoHashOp (dmGetTorrentInfoHashOp s t).1 t =
        dmGetTorrentInfoHashOp s t) ∧
    (∀ s t, (dmGetTorrentMagnetLinkOp s t).1 = s ∧
      dmGetTorrentMagnetLinkOp (dmGetTorrentMagnetLinkOp s t).1 t =
        dmGetTorrentMagnetLinkOp s t) ∧
    (∀ s, (dmGetLatestOp s).1 = s ∧
      dmGetLatestOp (dmGetLatestOp s).1 = dmGetLatestOp s) ∧
    (∀ s ld sf, (q1nSearchOp s ld sf).1 = s ∧
      q1nSearchOp (q1nSearchOp s ld sf).1 ld sf = q1nSearchOp s ld sf) ∧
    (∀ s pl sv, (q1nFindEpisodeServerOp s pl sv).1 = s ∧
      q1nFindEpisodeServerOp (q1nFindEpisodeServerOp s pl sv).1 pl sv =
        q1nFindEpisodeServerOp s pl sv) ∧
    (∀ s pb sf, (mlSearchOp s pb sf).1 = s ∧
      mlSearchOp (mlSearchOp s pb sf).1 pb sf = mlSearchOp s pb sf) ∧
    (∀ s mid pr ar ld, (mlFindChaptersOp s mid pr ar ld).1 = s ∧
      mlFindChaptersOp (mlFindChaptersOp s mid pr ar ld).1 mid pr ar ld =
        mlFindChaptersOp s mid pr ar ld) ∧
    (∀ s now n m u r e, (dmCreateAnimeTorrentOp s now n m u r e).1 = s ∧
      dmCreateAnimeTorrentOp (dmCreateAnimeTorrentOp s now n m u r e).1 now n m u r e =
        dmCreateAnimeTorrentOp s now n m u r e) := by
  refine ⟨fun s => ⟨rfl, rfl⟩, fun s cq pt sf pf q => ⟨rfl, rfl⟩,
    fun s res opts => ⟨rfl, rfl⟩, fun s t => ⟨rfl, rfl⟩, fun s t => ⟨rfl, rfl⟩,
    fun s => ⟨rfl, rfl⟩, fun s ld sf => ⟨rfl, rfl⟩, fun s pl sv => ⟨rfl, rfl⟩,
    fun s pb sf => ⟨rfl, rfl⟩, fun s mid pr ar ld => ⟨rfl, rfl⟩,
    fun s now n m u r e => ⟨rfl, rfl⟩⟩
